import Mathlib

/-!
Verification of the Akumuli query-processing core: a shallow embedding of
`queryparser.cpp`, `queryprocessor.cpp`, `queryplan.cpp` and
`randomsamplingnode.cpp`, together with theorems about the embedded
definitions.  Machine integers (`u64` timestamps) are modelled as `Nat`;
wraparound arithmetic is made explicit (`wadd`, `wsub`) where the source
adds or subtracts unsigned values.  External collaborators (regex engine,
date-time parsing, `Aggregation::from_string`, `GroupByTag`) are passed in
as explicit function parameters, mirroring their interface contracts.
-/

namespace Akumuli

/-- Status codes used by the core (`aku_Status`). -/
inductive Status where
  | AKU_SUCCESS
  | AKU_EBAD_ARG
  | AKU_EBAD_DATA
  | AKU_EQUERY_PARSING_ERROR
  | AKU_ENO_DATA
  | AKU_EOVERFLOW
deriving DecidableEq, Repr

/-- Payload type tag of a sample (`aku_PData`): regular data, the `EMPTY`
group-by boundary marker, the internal `MARGIN` event, or the id-only
`PARAMID_BIT` payload. -/
inductive PayloadType where
  | DATA
  | EMPTY
  | MARGIN
  | PARAMID_BIT
deriving DecidableEq, Repr

/-- A sample (`aku_Sample`): timestamp, series id and payload tag.  The
64-bit float value and the byte size of the payload play no role in the
claims below and are omitted. -/
structure Sample where
  timestamp : Nat
  paramid : Nat
  payload : PayloadType
deriving DecidableEq, Repr

/-- The `EMPTY_SAMPLE` constant: a zeroed sample with the `EMPTY` payload. -/
def EMPTY_SAMPLE : Sample := { timestamp := 0, paramid := 0, payload := .EMPTY }

/-- Word size of `u64` arithmetic. -/
def W64 : Nat := 2 ^ 64

/-- The `u64` addition with wraparound. -/
def wadd (a b : Nat) : Nat := (a + b) % W64

/-- The `u64` subtraction with wraparound. -/
def wsub (a b : Nat) : Nat := (a % W64 + (W64 - b % W64)) % W64

theorem wadd_eq_add {a b : Nat} (h : a + b < W64) : wadd a b = a + b := by
  unfold wadd
  exact Nat.mod_eq_of_lt h

/-!  ## The property-tree model

`boost::property_tree::ptree` as used by the parser: every node carries a
string value (`data`) and an ordered list of key/child pairs.  JSON arrays
become children with empty keys; scalars become childless nodes whose
`data` is the scalar's textual form. -/

/-- A boost property tree: a data string and an ordered key/child list. -/
inductive PTree where
  | node (data : String) (children : List (String × PTree))

/-- The node's own string value (`get_value<std::string>()`). -/
def PTree.data : PTree → String
  | .node d _ => d

/-- The node's ordered key/child list. -/
def PTree.children : PTree → List (String × PTree)
  | .node _ c => c

/-- The `ptree::get_child_optional(key)`: the first child with the given key. -/
def PTree.get_child_optional (p : PTree) (key : String) : Option PTree :=
  (p.children.find? (fun kv => kv.1 == key)).map (·.2)

/-- The `ptree::empty()`: whether the node has no children. -/
def PTree.emptyChildren (p : PTree) : Bool :=
  p.children.isEmpty

/-- The `get_value_optional<std::string>()`: conversion of a ptree value to a
string always succeeds in boost, so this is always `some`. -/
def PTree.get_value_optional_string (p : PTree) : Option String :=
  some p.data

/-- Full-string decimal parse (the conversion boost's stream translator
performs for `u64`). -/
def parse_u64 (s : String) : Option Nat :=
  if s.toList.isEmpty then none
  else
    s.toList.foldl
      (fun acc c =>
        match acc with
        | none => none
        | some n => if c.isDigit then some (n * 10 + (c.toNat - 48)) else none)
      (some 0)

/-- The `get_value<u64>()`: boost's stream translator accepts exactly a full
decimal literal; anything else throws (modelled as `none`). -/
def PTree.get_value_u64 (p : PTree) : Option Nat :=
  parse_u64 p.data

/-!  ## `validate_query` (queryparser.cpp)

The set of statements that may appear at most once and must not be
combined, the set of allowed statements, and the validation loop.  Note
that the source never inserts the scanned keyword into the `keywords`
set, which the embedding reproduces faithfully. -/

/-- The mutually-exclusive top-level statements (`UNIQUE_STMTS`). -/
def UNIQUE_STMTS : List String :=
  ["select", "aggregate", "join", "group-aggregate"]

/-- The recognized top-level statements (`ALLOWED_STMTS`). -/
def ALLOWED_STMTS : List String :=
  ["select", "aggregate", "join", "output", "order-by", "group-by",
   "limit", "offset", "range", "where", "group-aggregate"]

/-- The loop body of `validate_query`: walks the top-level items carrying
the `keywords` set.  As in the source, nothing is ever added to
`keywords`. -/
def validate_query_loop (keywords : List String) :
    List (String × PTree) → Status
  | [] => .AKU_SUCCESS
  | (keyword, _) :: rest =>
    if ¬ (ALLOWED_STMTS.contains keyword) then .AKU_EQUERY_PARSING_ERROR
    else if keywords.contains keyword then .AKU_EQUERY_PARSING_ERROR
    else if UNIQUE_STMTS.any (fun kw => keywords.contains kw) then
      .AKU_EQUERY_PARSING_ERROR
    else validate_query_loop keywords rest

/-- The `validate_query`: rejects unknown top-level statements; the duplicate
and mutual-exclusion checks consult the (never-extended) `keywords` set. -/
def validate_query (p : PTree) : Status :=
  validate_query_loop [] p.children

/-!  ## `parse_limit_offset` and the processing topology -/

/-- The `parse_limit_offset`: reads the optional `limit` and `offset`
statements.  As in the source, the value of the `offset` statement is
assigned to the `limit` variable and the `offset` variable is never
written after its initialization. -/
def parse_limit_offset (p : PTree) : Option (Nat × Nat) :=
  let limit := 0
  let offset := 0
  match p.get_child_optional "limit" with
  | some optlimit =>
    match optlimit.get_value_u64 with
    | none => none
    | some v =>
      let limit := v
      match p.get_child_optional "offset" with
      | some optoffset =>
        match optoffset.get_value_u64 with
        | none => none
        | some v2 => some (v2, offset)
      | none => some (limit, offset)
  | none =>
    match p.get_child_optional "offset" with
    | some optoffset =>
      match optoffset.get_value_u64 with
      | none => none
      | some v2 => some (v2, offset)
    | none => some (limit, offset)

/-- Modelled from the spec: the `Limiter` node
(`query_processing/limiter.h`/`.cpp` is not among the sources).  It
"skips the first `offset` samples, passes up to `limit`, then reports
`false` from `put` to stop upstream". -/
structure Limiter where
  limit_ : Nat
  offset_ : Nat
  counter_ : Nat
deriving DecidableEq, Repr

/-- Modelled from the spec: one `Limiter::put` call.  Returns the updated
node, the sample forwarded to the next node (if any), and `put`'s result.
`accept` is the downstream node's `put`. -/
def Limiter.put (accept : Sample → Bool) (l : Limiter) (s : Sample) :
    Limiter × Option Sample × Bool :=
  if l.counter_ < l.offset_ then
    ({ l with counter_ := l.counter_ + 1 }, none, true)
  else if l.counter_ < l.offset_ + l.limit_ then
    ({ l with counter_ := l.counter_ + 1 }, some s, accept s)
  else
    (l, none, false)

/-- Drives a list of samples through a `Limiter`, collecting the samples
forwarded downstream and the `put` results (the runner keeps calling
`put` even after a `false`, to observe the node's behaviour). -/
def Limiter.run (accept : Sample → Bool) (l : Limiter) :
    List Sample → List Sample × List Bool
  | [] => ([], [])
  | s :: rest =>
    let (l', fwd, ok) := l.put accept s
    let (fwds, oks) := l'.run accept rest
    (fwd.toList ++ fwds, ok :: oks)

/-- Nodes appearing in the pipeline assembled by
`parse_processing_topology`. -/
inductive NodeDesc where
  | limiter (limit offset : Nat)
  | terminal
deriving DecidableEq, Repr

/-- The `QueryParser::parse_processing_topology`: builds the terminal node and,
when `parse_limit_offset` yields a nonzero pair, prepends a `Limiter`
constructed with that pair.  A failed `u64` conversion in
`parse_limit_offset` propagates as an exception (`none`). -/
def parse_processing_topology (p : PTree) :
    Option (Status × List NodeDesc) :=
  match parse_limit_offset p with
  | none => none
  | some limoff =>
    if limoff.1 ≠ 0 ∨ limoff.2 ≠ 0 then
      some (.AKU_SUCCESS, [.limiter limoff.1 limoff.2, .terminal])
    else
      some (.AKU_SUCCESS, [.terminal])

/-!  ## `SeriesRetreiver` and the where-clause resolver -/

/-- The series matcher interface consumed by `extract_ids`
(`SeriesMatcher` itself lives outside the sources): the interned-id list,
the regex scan (name/id pairs), reverse lookup (empty string signals
corruption) and forward lookup (0 means "no such series"). -/
structure SeriesMatcher where
  all_ids : List Nat
  regex_match : String → List (String × Nat)
  id2str : Nat → String
  match_name : String → Nat

/-- The `SeriesRetreiver`: the metric list and the tag→values map
(`std::map`, kept sorted by key). -/
structure SeriesRetreiver where
  metric_ : List String := []
  tags_ : List (String × List String) := []
deriving DecidableEq, Repr

/-- Sorted-insert into the key-ordered tag map (`tags_[name] = values`). -/
def mapInsert (k : String) (v : List String) :
    List (String × List String) → List (String × List String)
  | [] => [(k, v)]
  | (k', v') :: rest =>
    if k < k' then (k, v) :: (k', v') :: rest
    else if k = k' then (k, v) :: rest
    else (k', v') :: mapInsert k v rest

/-- The `tags_.count(name)`: key membership in the tag map. -/
def mapContains (k : String) (m : List (String × List String)) : Bool :=
  m.any (fun kv => kv.1 == k)

/-- The `SeriesRetreiver::add_tag`: rejects a missing metric or a duplicate
tag with `EBAD_ARG`, otherwise stores the single value. -/
def SeriesRetreiver.add_tag (r : SeriesRetreiver) (name value : String) :
    Status × SeriesRetreiver :=
  if r.metric_.isEmpty then (.AKU_EBAD_ARG, r)
  else if mapContains name r.tags_ then (.AKU_EBAD_ARG, r)
  else (.AKU_SUCCESS, { r with tags_ := mapInsert name [value] r.tags_ })

/-- The `SeriesRetreiver::add_tags`: rejects a missing metric or a duplicate
tag with `EBAD_ARG`, otherwise stores the value set. -/
def SeriesRetreiver.add_tags (r : SeriesRetreiver) (name : String)
    (values : List String) : Status × SeriesRetreiver :=
  if r.metric_.isEmpty then (.AKU_EBAD_ARG, r)
  else if mapContains name r.tags_ then (.AKU_EBAD_ARG, r)
  else (.AKU_SUCCESS, { r with tags_ := mapInsert name values r.tags_ })

/-- The repeated tag pattern literal of `extract_ids`. -/
def TAG_PATTERN : String := "(?:\\s[\\w\\.\\-]+=[\\w\\.\\-]+)*"

/-- One tag's alternation group in the case-3 regex of `extract_ids`:
`(?:` then the values separated by `|`, each as
`TAG_PATTERN\s<key>=<value>TAG_PATTERN`, then `)`. -/
def tag_alternation (key : String) (values : List String) : String :=
  "(?:" ++
    String.intercalate "|"
      (values.map (fun val =>
        TAG_PATTERN ++ "\\s" ++ key ++ "=" ++ val ++ TAG_PATTERN)) ++
  ")"

/-- The inner loop of the multi-metric branch of `extract_ids`: for one
substituted metric, map every first-metric id to the id of the name with
the metric prefix replaced.  An id whose name cannot be reverse-mapped is
a fatal error (`AKU_PANIC`), modelled as `Except.error`. -/
def lookup_tail_ids (matcher : SeriesMatcher) (first_metric metric : String) :
    List Nat → Except String (List Nat)
  | [] => .ok []
  | id :: rest =>
    let name := matcher.id2str id
    if name.length = 0 then .error "Matcher data is broken"
    else do
      let sids ← lookup_tail_ids matcher first_metric metric rest
      .ok (matcher.match_name (metric ++ name.drop first_metric.length) :: sids)

/-- The outer loop of the multi-metric branch of `extract_ids`: appends
one block of substituted ids per remaining metric. -/
def extract_ids_tail (matcher : SeriesMatcher) (first_metric : String)
    (ids : List Nat) : List String → Except String (List Nat)
  | [] => .ok []
  | metric :: more => do
    let sids ← lookup_tail_ids matcher first_metric metric ids
    let rest ← extract_ids_tail matcher first_metric ids more
    .ok (sids ++ rest)

/-- The `SeriesRetreiver::extract_ids`: no metric — all interned ids; metric
only — regex scan with the tag pattern; metric and tags — regex scan with
the per-tag alternations; additional metrics — one substituted id block
per metric appended after the first block. -/
def SeriesRetreiver.extract_ids (r : SeriesRetreiver)
    (matcher : SeriesMatcher) : Except String (Status × List Nat) :=
  match r.metric_ with
  | [] => .ok (.AKU_SUCCESS, matcher.all_ids)
  | first_metric :: tail_metrics =>
    let ids :=
      if r.tags_.isEmpty then
        ((matcher.regex_match (first_metric ++ TAG_PATTERN)).map (·.2))
      else
        ((matcher.regex_match
          (first_metric ++
            String.join (r.tags_.map (fun kv => tag_alternation kv.1 kv.2)))).map
          (·.2))
    if tail_metrics.isEmpty then .ok (.AKU_SUCCESS, ids)
    else do
      let tailIds ← extract_ids_tail matcher first_metric ids tail_metrics
      .ok (.AKU_SUCCESS, ids ++ tailIds)

/-- The loop body of `parse_where_clause`: one `where` item either adds a
value list (`add_tags`) or a single value (`add_tag`); in both cases the
returned status is discarded, as in the source. -/
def where_fold (r : SeriesRetreiver) :
    List (String × PTree) → SeriesRetreiver
  | [] => r
  | (tag, idslist) :: rest =>
    if ¬ idslist.emptyChildren then
      let tag_values := idslist.children.map (fun idnode => idnode.2.data)
      where_fold (r.add_tags tag tag_values).2 rest
    else
      where_fold (r.add_tag tag idslist.data).2 rest

/-- The `parse_where_clause`: with a `where` statement, requires a metric,
folds the items into a `SeriesRetreiver` and extracts ids; without one,
extracts ids for the metric list (or for everything). -/
def parse_where_clause (p : PTree) (metrics : List String)
    (matcher : SeriesMatcher) : Except String (Status × List Nat) :=
  match p.get_child_optional "where" with
  | some whereClause =>
    if metrics.isEmpty then .ok (.AKU_EQUERY_PARSING_ERROR, [])
    else
      let retreiver : SeriesRetreiver := { metric_ := metrics }
      let retreiver := where_fold retreiver whereClause.children
      retreiver.extract_ids matcher
  | none =>
    if ¬ metrics.isEmpty then
      SeriesRetreiver.extract_ids { metric_ := metrics } matcher
    else
      SeriesRetreiver.extract_ids {} matcher

/-!  ## Small statement parsers -/

/-- Ordering of the result stream (`OrderBy`); `SERIES` is the zero
enumerator per the header declaration. -/
inductive OrderBy where
  | SERIES
  | TIME
deriving DecidableEq, Repr

/-- The `parse_orderby`: `"time"`, `"series"`, or a parse error; defaults to
`TIME` when the statement is absent. -/
def parse_orderby (p : PTree) : Status × OrderBy :=
  match p.get_child_optional "order-by" with
  | some orderby =>
    let stringval := orderby.data
    if stringval = "time" then (.AKU_SUCCESS, .TIME)
    else if stringval = "series" then (.AKU_SUCCESS, .SERIES)
    else (.AKU_EQUERY_PARSING_ERROR, .TIME)
  | none => (.AKU_SUCCESS, .TIME)

/-- The `parse_groupby`: collects the tag names listed under `group-by`
(string conversion of a ptree value always succeeds, so the error branch
of the source is unreachable). -/
def parse_groupby (p : PTree) : Status × List String :=
  match p.get_child_optional "group-by" with
  | some groupby =>
    (.AKU_SUCCESS, groupby.children.map (fun item => item.2.data))
  | none => (.AKU_SUCCESS, [])

/-- The `parse_select_stmt`: the `select` child must exist and be childless;
its value is the series/metric name. -/
def parse_select_stmt (p : PTree) : Status × String :=
  match p.get_child_optional "select" with
  | some sel =>
    if sel.emptyChildren then (.AKU_SUCCESS, sel.data)
    else (.AKU_EQUERY_PARSING_ERROR, "")
  | none => (.AKU_EQUERY_PARSING_ERROR, "")

/-- The `parse_join_stmt`: the ordered metric list under `join`; an empty
list is a parse error (the value-conversion failure branch of the source
is unreachable for strings). -/
def parse_join_stmt (p : PTree) : Status × List String :=
  match p.get_child_optional "join" with
  | some join =>
    let result := join.children.map (fun item => item.2.data)
    if result.isEmpty then (.AKU_EQUERY_PARSING_ERROR, result)
    else (.AKU_SUCCESS, result)
  | none => (.AKU_EQUERY_PARSING_ERROR, [])

/-- The `parse_aggregate_stmt`: the first key/value pair under `aggregate`
yields the metric name and the function name. -/
def parse_aggregate_stmt (p : PTree) : Status × String × String :=
  match p.get_child_optional "aggregate" with
  | some aggregate =>
    match aggregate.children with
    | [] => (.AKU_EQUERY_PARSING_ERROR, "", "")
    | kv :: _ => (.AKU_SUCCESS, kv.1, kv.2.data)
  | none => (.AKU_EQUERY_PARSING_ERROR, "", "")

/-- The `parse_range_timestamp`: scans the `range` children for `from` and
`to`, converting each via the external ISO-8601 parser (`none` models the
exception path, leaving the flag unset); both must be set. -/
def parse_range_timestamp (from_iso : String → Option Nat) (p : PTree) :
    Status × Nat × Nat :=
  let st :=
    match p.get_child_optional "range" with
    | some range =>
      range.children.foldl
        (fun (acc : Nat × Bool × Nat × Bool) (child : String × PTree) =>
          let (b, bset, e, eset) := acc
          if child.1 = "from" then
            match from_iso child.2.data with
            | some ts => (ts, true, e, eset)
            | none => (b, bset, e, eset)
          else if child.1 = "to" then
            match from_iso child.2.data with
            | some ts => (b, bset, ts, true)
            | none => (b, bset, e, eset)
          else (b, bset, e, eset))
        (0, false, 0, false)
    | none => (0, false, 0, false)
  if ¬ st.2.1 ∨ ¬ st.2.2.2 then (.AKU_EQUERY_PARSING_ERROR, st.1, st.2.2.1)
  else (.AKU_SUCCESS, st.1, st.2.2.1)

/-!  ## The `ReshapeRequest` model and external helpers -/

/-- Aggregation functions (`AggregationFunction`). -/
inductive AggregationFunction where
  | CNT
  | MIN
  | MAX
  | SUM
  | MEAN
deriving DecidableEq, Repr

/-- One column of resolved series ids. -/
structure Column where
  ids : List Nat
deriving DecidableEq, Repr

/-- The `select` part of a `ReshapeRequest`.  A rebuilt local matcher is
represented by its name/id table. -/
structure SelectParams where
  begin_ : Nat := 0
  end_ : Nat := 0
  columns : List Column := []
  matcher : Option (List (String × Nat)) := none
deriving DecidableEq, Repr

/-- The `agg` part of a `ReshapeRequest`. -/
structure AggParams where
  enabled : Bool := false
  step : Nat := 0
  func : List AggregationFunction := []
deriving DecidableEq, Repr

/-- The `group_by` part of a `ReshapeRequest`. -/
structure GroupByParams where
  enabled : Bool := false
  transient_map : List (Nat × Nat) := []
  matcher : Option (List (String × Nat)) := none
deriving DecidableEq, Repr

/-- The normalized query representation handed to the plan builder.  The
defaults are the value-initialized state `ReshapeRequest result = {}`;
the zero enumerator of `OrderBy` is `SERIES` per the header
declaration. -/
structure ReshapeRequest where
  select : SelectParams := {}
  agg : AggParams := {}
  order_by : OrderBy := .SERIES
  group_by : GroupByParams := {}
deriving DecidableEq, Repr

/-- The value-initialized request. -/
def ReshapeRequest.empty : ReshapeRequest := {}

/-- The mapping and local matcher produced by a `GroupByTag` object
(defined outside the sources). -/
structure GroupByTagModel where
  mapping : List (Nat × Nat) := []
  local_matcher : List (String × Nat) := []

/-- External helpers used by the parser whose implementations live
outside the sources: `Aggregation::from_string` / `to_string`,
`DateTimeUtil::parse_duration` / `from_iso_string` (where `none` models
the exception/bad-status path) and the `GroupByTag` constructor. -/
structure ExternalFns where
  agg_from_string : String → Status × AggregationFunction
  agg_to_string : AggregationFunction → String
  parse_duration : String → Option Nat
  from_iso_string : String → Option Nat
  group_by_tag : String → List String → GroupByTagModel

/-!  ## `QueryParser::parse_aggregate_query` -/

namespace QueryParser

/-- The `QueryParser::parse_aggregate_query`: validation, the `aggregate`
statement, the aggregation function, `group-by`, the forbidden
`order-by`, the `where` clause and the `range`; on success the request
carries the single function and `order_by = SERIES`. -/
def parse_aggregate_query (ext : ExternalFns) (matcher : SeriesMatcher)
    (p : PTree) : Except String (Status × ReshapeRequest) :=
  let result := ReshapeRequest.empty
  match validate_query p with
  | .AKU_SUCCESS =>
    match parse_aggregate_stmt p with
    | (.AKU_SUCCESS, metric, aggfun) =>
      match ext.agg_from_string aggfun with
      | (.AKU_SUCCESS, func) =>
        match parse_groupby p with
        | (.AKU_SUCCESS, tags) =>
          let groupbytag :=
            if tags.isEmpty then none else some (ext.group_by_tag metric tags)
          match p.get_child_optional "order-by" with
          | some _ => .ok (.AKU_EQUERY_PARSING_ERROR, result)
          | none =>
            match parse_where_clause p [metric] matcher with
            | .error e => .error e
            | .ok (.AKU_SUCCESS, ids) =>
              match parse_range_timestamp ext.from_iso_string p with
              | (.AKU_SUCCESS, ts_begin, ts_end) =>
                let result := { result with
                  agg.enabled := true
                  agg.func := [func]
                  select.begin_ := ts_begin
                  select.end_ := ts_end
                  select.columns := [{ ids := ids }]
                  order_by := OrderBy.SERIES }
                let result :=
                  match groupbytag with
                  | some g => { result with
                      group_by.enabled := true
                      group_by.transient_map := g.mapping
                      select.matcher := some g.local_matcher }
                  | none => { result with group_by.enabled := false }
                .ok (.AKU_SUCCESS, result)
              | (status, _, _) => .ok (status, result)
            | .ok (status, _) => .ok (status, result)
        | (status, _) => .ok (status, result)
      | (status, _) => .ok (status, result)
    | (status, _, _) => .ok (status, result)
  | status => .ok (status, result)

end QueryParser

/-!  ## `group-aggregate` statement and query -/

/-- Result of parsing the `group-aggregate` statement. -/
structure GroupAggregate where
  metric : String := ""
  func : List AggregationFunction := []
  step : Nat := 0
deriving DecidableEq, Repr

/-- The inner `func` loop of `parse_group_aggregate_stmt`: returns the
number of parsed functions, the error flag, and the functions pushed so
far (partial pushes are kept, as in the source). -/
def group_aggregate_fn_loop (ext : ExternalFns) :
    List (String × PTree) → Nat × Bool × List AggregationFunction
  | [] => (0, false, [])
  | child :: rest =>
    match child.2.get_value_optional_string with
    | some fn =>
      match ext.agg_from_string fn with
      | (.AKU_SUCCESS, func) =>
        let (n, error, fs) := group_aggregate_fn_loop ext rest
        (n + 1, error, func :: fs)
      | _ => (0, true, [])
    | none => group_aggregate_fn_loop ext rest

/-- The statement loop of `parse_group_aggregate_stmt`, carrying the
`components` flags `(step, metric, func)`.  Returning without recursing
models the source's `break`. -/
def group_aggregate_stmt_loop (ext : ExternalFns) (aggChild : PTree) :
    List (String × PTree) → (Bool × Bool × Bool) → GroupAggregate →
    (Bool × Bool × Bool) × GroupAggregate
  | [], comps, res => (comps, res)
  | (tag_name, v) :: rest, comps, res =>
    if tag_name = "step" then
      if comps.1 then (comps, res)
      else
        match v.get_value_optional_string with
        | none => (comps, res)
        | some value =>
          match ext.parse_duration value with
          | some step =>
            group_aggregate_stmt_loop ext aggChild rest
              (true, comps.2.1, comps.2.2) { res with step := step }
          | none => group_aggregate_stmt_loop ext aggChild rest comps res
    else if tag_name = "metric" then
      match v.get_value_optional_string with
      | none => (comps, res)
      | some value =>
        if comps.2.1 then (comps, res)
        else
          group_aggregate_stmt_loop ext aggChild rest
            (comps.1, true, comps.2.2) { res with metric := value }
    else if tag_name = "func" then
      if comps.2.2 then (comps, res)
      else
        let funcChild := (aggChild.get_child_optional "func").getD v
        let (n, error, fs) := group_aggregate_fn_loop ext funcChild.children
        if error then (comps, { res with func := res.func ++ fs })
        else
          group_aggregate_stmt_loop ext aggChild rest
            (comps.1, comps.2.1, decide (n ≠ 0)) { res with func := res.func ++ fs }
    else group_aggregate_stmt_loop ext aggChild rest comps res

/-- The `parse_group_aggregate_stmt`: runs the statement loop over the
`group-aggregate` child and requires all of `step`, `metric` and `func`
to be present. -/
def parse_group_aggregate_stmt (ext : ExternalFns) (p : PTree) :
    Status × GroupAggregate :=
  match p.get_child_optional "group-aggregate" with
  | some aggregate =>
    let (comps, result) :=
      group_aggregate_stmt_loop ext aggregate aggregate.children
        (false, false, false) {}
    if comps.1 ∧ comps.2.1 ∧ comps.2.2 then (.AKU_SUCCESS, result)
    else (.AKU_EQUERY_PARSING_ERROR, result)
  | none => (.AKU_EQUERY_PARSING_ERROR, {})

/-- The per-id loop of `init_matcher_in_group_aggregate`: builds the
`metric:f1|metric:f2 tags` display-name table, failing with `EBAD_DATA`
when a name does not start with the metric. -/
def init_matcher_in_group_aggregate_loop (ext : ExternalFns)
    (global_matcher : SeriesMatcher) (metric_name : String)
    (func_names : List AggregationFunction) :
    List Nat → Status × List (String × Nat)
  | [] => (.AKU_SUCCESS, [])
  | id :: rest =>
    let name := global_matcher.id2str id
    if ¬ name.startsWith metric_name then (.AKU_EBAD_DATA, [])
    else
      let str :=
        String.intercalate "|"
          (func_names.map (fun func => metric_name ++ ":" ++ ext.agg_to_string func))
        ++ name.drop metric_name.length
      match init_matcher_in_group_aggregate_loop ext global_matcher
          metric_name func_names rest with
      | (.AKU_SUCCESS, entries) => (.AKU_SUCCESS, (str, id) :: entries)
      | err => err

/-- The `init_matcher_in_group_aggregate`: rebuilds the request's local
matcher from the first column's ids (`vector::at` on an empty column
list throws, modelled as an exception). -/
def init_matcher_in_group_aggregate (ext : ExternalFns)
    (global_matcher : SeriesMatcher) (metric_name : String)
    (func_names : List AggregationFunction) (req : ReshapeRequest) :
    Except String (Status × ReshapeRequest) :=
  match req.select.columns with
  | [] => .error "std::out_of_range"
  | c0 :: _ =>
    match init_matcher_in_group_aggregate_loop ext global_matcher
        metric_name func_names c0.ids with
    | (.AKU_SUCCESS, entries) =>
      .ok (.AKU_SUCCESS, { req with select.matcher := some entries })
    | (status, _) => .ok (status, req)

namespace QueryParser

/-- The `QueryParser::parse_group_aggregate_query`: after a successful
statement parse, an empty function list or a zero step logs an error but
returns the prevailing status (`AKU_SUCCESS`) with the untouched request;
otherwise the query is resolved, `order-by` is read into the request, the
local matcher is rebuilt (its status is discarded, as in the source) and
the group-by mapping applied. -/
def parse_group_aggregate_query (ext : ExternalFns)
    (matcher : SeriesMatcher) (p : PTree) :
    Except String (Status × ReshapeRequest) :=
  let result := ReshapeRequest.empty
  match validate_query p with
  | .AKU_SUCCESS =>
    match parse_group_aggregate_stmt ext p with
    | (.AKU_SUCCESS, gagg) =>
      if gagg.func.isEmpty then .ok (.AKU_SUCCESS, result)
      else if gagg.step = 0 then .ok (.AKU_SUCCESS, result)
      else
        match parse_groupby p with
        | (.AKU_SUCCESS, tags) =>
          let groupbytag :=
            if tags.isEmpty then none
            else some (ext.group_by_tag gagg.metric tags)
          match parse_where_clause p [gagg.metric] matcher with
          | .error e => .error e
          | .ok (.AKU_SUCCESS, ids) =>
            match parse_range_timestamp ext.from_iso_string p with
            | (.AKU_SUCCESS, ts_begin, ts_end) =>
              let result := { result with
                agg.enabled := true
                agg.func := gagg.func
                agg.step := gagg.step
                select.begin_ := ts_begin
                select.end_ := ts_end
                select.columns := [{ ids := ids }] }
              let (status, order) := parse_orderby p
              let result := { result with order_by := order }
              match status with
              | .AKU_SUCCESS =>
                match init_matcher_in_group_aggregate ext matcher gagg.metric
                    gagg.func result with
                | .error e => .error e
                | .ok (_, result) =>
                  let result :=
                    match groupbytag with
                    | some g => { result with
                        group_by.enabled := true
                        group_by.transient_map := g.mapping
                        select.matcher := some g.local_matcher }
                    | none => { result with group_by.enabled := false }
                  .ok (.AKU_SUCCESS, result)
              | st => .ok (st, result)
            | (status, _, _) => .ok (status, result)
          | .ok (status, _) => .ok (status, result)
        | (status, _) => .ok (status, result)
    | (status, _) => .ok (status, result)
  | status => .ok (status, result)

end QueryParser

/-!  ## `join` query -/

/-- The per-id loop of `init_matcher_in_join_query`: pipe-separated
metric names followed by the original tags. -/
def init_matcher_in_join_query_loop (global_matcher : SeriesMatcher)
    (metric_names : List String) (front_metric : String) :
    List Nat → Status × List (String × Nat)
  | [] => (.AKU_SUCCESS, [])
  | id :: rest =>
    let name := global_matcher.id2str id
    if ¬ name.startsWith front_metric then (.AKU_EBAD_DATA, [])
    else
      let str :=
        String.intercalate "|" metric_names ++ name.drop front_metric.length
      match init_matcher_in_join_query_loop global_matcher metric_names
          front_metric rest with
      | (.AKU_SUCCESS, entries) => (.AKU_SUCCESS, (str, id) :: entries)
      | err => err

/-- The `init_matcher_in_join_query`: requires at least two columns matching
the metric-name count, then rebuilds the local matcher from the first
column. -/
def init_matcher_in_join_query (global_matcher : SeriesMatcher)
    (metric_names : List String) (req : ReshapeRequest) :
    Except String (Status × ReshapeRequest) :=
  if req.select.columns.length < 2 then .ok (.AKU_EBAD_ARG, req)
  else if req.select.columns.length ≠ metric_names.length then
    .ok (.AKU_EBAD_ARG, req)
  else
    match req.select.columns, metric_names with
    | c0 :: _, m0 :: _ =>
      match init_matcher_in_join_query_loop global_matcher metric_names
          m0 c0.ids with
      | (.AKU_SUCCESS, entries) =>
        .ok (.AKU_SUCCESS, { req with select.matcher := some entries })
      | (status, _) => .ok (status, req)
    | _, _ => .error "unreachable: size checks"

/-- The column-splitting loop of `parse_join_query`: `ncolumns`
consecutive blocks of `nentries` ids. -/
def join_columns (ids : List Nat) (ncolumns nentries : Nat) : List Column :=
  (List.range ncolumns).map (fun i => { ids := (ids.drop (i * nentries)).take nentries })

namespace QueryParser

/-- The `QueryParser::parse_join_query`: validation, the `join` metric list,
`order-by`, the `where` clause, the `range`; a resolved id list whose
length is not a multiple of the metric count is a programming error
(`AKU_PANIC`, modelled as `Except.error`), otherwise the ids are split
into columns and the join matcher is built. -/
def parse_join_query (ext : ExternalFns) (matcher : SeriesMatcher)
    (p : PTree) : Except String (Status × ReshapeRequest) :=
  let result := ReshapeRequest.empty
  match validate_query p with
  | .AKU_SUCCESS =>
    match parse_join_stmt p with
    | (.AKU_SUCCESS, metrics) =>
      match parse_orderby p with
      | (.AKU_SUCCESS, order) =>
        let result := { result with order_by := order }
        match parse_where_clause p metrics matcher with
        | .error e => .error e
        | .ok (.AKU_SUCCESS, ids) =>
          match parse_range_timestamp ext.from_iso_string p with
          | (.AKU_SUCCESS, ts_begin, ts_end) =>
            let result := { result with
              group_by.enabled := false
              agg.enabled := false
              select.begin_ := ts_begin
              select.end_ := ts_end }
            let ncolumns := metrics.length
            let nentries := ids.length / ncolumns
            if ids.length % ncolumns ≠ 0 then
              .error "Invalid where statement processing results"
            else
              let result := { result with
                select.columns := join_columns ids ncolumns nentries }
              match init_matcher_in_join_query matcher metrics result with
              | .error e => .error e
              | .ok (.AKU_SUCCESS, result) => .ok (.AKU_SUCCESS, result)
              | .ok (status, result) => .ok (status, result)
          | (status, _, _) => .ok (status, result)
        | .ok (status, _) => .ok (status, result)
      | (status, _) => .ok (status, result)
    | (status, _) => .ok (status, result)
  | status => .ok (status, result)

end QueryParser

/-!  ## The plan builder (`queryplan.cpp`) -/

/-- Tier-1 (storage) operators. -/
inductive Tier1Operator where
  | SCAN_RANGE
  | AGGREGATE_RANGE
  | GROUP_AGGREGATE_RANGE
deriving DecidableEq, Repr

/-- Tier-2 (materialization) operators. -/
inductive Tier2Operator where
  | CHAIN_SERIES
  | MERGE_TIME_ORDER
  | MERGE_SERIES_ORDER
  | AGGREGATE
  | AGGREGATE_COMBINE
  | MERGE_JOIN_SERIES_ORDER
  | MERGE_JOIN_TIME_ORDER
  | SERIES_ORDER_AGGREGATE_MATERIALIZER
  | TIME_ORDER_AGGREGATE_MATERIALIZER
deriving DecidableEq, Repr

/-- The operator union of a plan stage. -/
inductive StageOp where
  | tier1 (op : Tier1Operator)
  | tier2 (op : Tier2Operator)
deriving DecidableEq, Repr

/-- One stage of the two-tier query plan (`QueryPlanStage`). -/
structure QueryPlanStage where
  op_ : StageOp
  tier_ : Nat
  opt_ids_ : List Nat := []
  time_range_ : Nat × Nat := (0, 0)
  opt_matcher_ : Option (List (String × Nat)) := none
  opt_func_ : List AggregationFunction := []
  opt_step_ : Nat := 0
  opt_join_cardinality_ : Nat := 0
deriving DecidableEq, Repr

/-- Group-by id rewriting used by the tier-2 stages: map each id through
the transient map, dropping unmapped ids. -/
def rewrite_ids (transient_map : List (Nat × Nat)) (ids : List Nat) :
    List Nat :=
  ids.filterMap (fun id => (transient_map.find? (fun kv => kv.1 == id)).map (·.2))

/-- The `create_aggregate`: an aggregate request ordered by time is a fatal
construction error (`AKU_PANIC`, modelled as `Except.error`); otherwise a
tier-1 `AGGREGATE_RANGE` stage and a tier-2 `AGGREGATE` (or
`AGGREGATE_COMBINE` under group-by) stage. -/
def create_aggregate (req : ReshapeRequest) :
    Except String (List QueryPlanStage) :=
  if req.order_by = .TIME then .error "Invalid request"
  else
    match req.select.columns with
    | [] => .error "std::out_of_range"
    | c0 :: _ =>
      let range := (req.select.begin_, req.select.end_)
      let t1stage : QueryPlanStage :=
        { op_ := .tier1 .AGGREGATE_RANGE, tier_ := 1, opt_ids_ := c0.ids,
          opt_matcher_ := req.select.matcher, time_range_ := range }
      if req.group_by.enabled then
        let ids := rewrite_ids req.group_by.transient_map c0.ids
        let t2stage : QueryPlanStage :=
          { op_ := .tier2 .AGGREGATE_COMBINE, tier_ := 2,
            opt_matcher_ := req.group_by.matcher, opt_ids_ := ids,
            time_range_ := range, opt_func_ := req.agg.func }
        .ok [t1stage, t2stage]
      else
        let t2stage : QueryPlanStage :=
          { op_ := .tier2 .AGGREGATE, tier_ := 2, opt_ids_ := c0.ids,
            time_range_ := range, opt_matcher_ := req.select.matcher,
            opt_func_ := req.agg.func }
        .ok [t1stage, t2stage]

/-!  ## `RandomSamplingNode` (randomsamplingnode.cpp)

The node's RNG (`random_`) lives in the header outside the sources; each
`put` therefore takes the raw random value as an explicit argument.  The
downstream node is an `accept` predicate; the samples forwarded to it are
returned as a list. -/

/-- The comparison predicate of `RandomSamplingNode::flush`: lexicographic
`(timestamp, paramid)`. -/
def sampleLe (a b : Sample) : Prop :=
  a.timestamp < b.timestamp ∨
    (a.timestamp = b.timestamp ∧ a.paramid ≤ b.paramid)

instance : DecidableRel sampleLe := fun a b => by
  unfold sampleLe; infer_instance

instance : IsTotal Sample sampleLe where
  total a b := by
    unfold sampleLe
    rcases Nat.lt_trichotomy a.timestamp b.timestamp with h | h | h
    · exact Or.inl (Or.inl h)
    · rcases Nat.le_total a.paramid b.paramid with h2 | h2
      · exact Or.inl (Or.inr ⟨h, h2⟩)
      · exact Or.inr (Or.inr ⟨h.symm, h2⟩)
    · exact Or.inr (Or.inl h)

instance : IsTrans Sample sampleLe where
  trans a b c hab hbc := by
    unfold sampleLe at *
    rcases hab with h1 | ⟨e1, l1⟩
    · rcases hbc with h2 | ⟨e2, _⟩
      · exact Or.inl (h1.trans h2)
      · exact Or.inl (e2 ▸ h1)
    · rcases hbc with h2 | ⟨e2, l2⟩
      · exact Or.inl (e1 ▸ h2)
      · exact Or.inr ⟨e1.trans e2, l1.trans l2⟩

/-- The reservoir node: capacity and buffered samples. -/
structure RandomSamplingNode where
  buffer_size_ : Nat
  samples_ : List Sample
deriving DecidableEq, Repr

/-- The drain loop of `flush`: forward samples downstream until one is
rejected; returns the forwarded samples (the rejected one included, since
its `put` was called) and whether all were accepted. -/
def drainSamples (accept : Sample → Bool) : List Sample → List Sample × Bool
  | [] => ([], true)
  | s :: rest =>
    if accept s then
      let (fwd, ok) := drainSamples accept rest
      (s :: fwd, ok)
    else ([s], false)

/-- The `RandomSamplingNode::flush`: stably sort the buffer by
`(timestamp, paramid)` (`std::stable_sort`, modelled by the stable
`insertionSort`), drain it downstream, and clear it — unless the
downstream rejected a sample, in which case the sorted buffer is kept. -/
def RandomSamplingNode.flush (accept : Sample → Bool)
    (node : RandomSamplingNode) : RandomSamplingNode × List Sample × Bool :=
  let sorted := node.samples_.insertionSort sampleLe
  let (fwd, ok) := drainSamples accept sorted
  if ok then ({ node with samples_ := [] }, fwd, true)
  else ({ node with samples_ := sorted }, fwd, false)

/-- The `RandomSamplingNode::put`: an `EMPTY` marker triggers a flush; below
capacity the sample is appended; at capacity an index `r % samples_.size()`
is drawn and the slot replaced when the index is below the capacity. -/
def RandomSamplingNode.put (accept : Sample → Bool)
    (node : RandomSamplingNode) (sample : Sample) (r : Nat) :
    RandomSamplingNode × List Sample × Bool :=
  if sample.payload = .EMPTY then node.flush accept
  else
    if node.samples_.length < node.buffer_size_ then
      ({ node with samples_ := node.samples_ ++ [sample] }, [], true)
    else
      let ix := r % node.samples_.length
      if ix < node.buffer_size_ then
        ({ node with samples_ := node.samples_.set ix sample }, [], true)
      else (node, [], true)

/-- The `RandomSamplingNode::complete`: flush, then the downstream `complete`
(the latter is outside this model). -/
def RandomSamplingNode.complete (accept : Sample → Bool)
    (node : RandomSamplingNode) : RandomSamplingNode × List Sample × Bool :=
  node.flush accept

/-- Feed a list of (sample, random value) pairs through `put`. -/
def RandomSamplingNode.runPuts (accept : Sample → Bool)
    (node : RandomSamplingNode) :
    List (Sample × Nat) → RandomSamplingNode
  | [] => node
  | (s, r) :: rest =>
    RandomSamplingNode.runPuts accept (node.put accept s r).1 rest

/-!  ## `GroupByStatement` (queryprocessor.cpp) -/

/-- The group-by-time state: step, first-hit flag and the current bucket
bounds (`AKU_MIN_TIMESTAMP` = 0). -/
structure GroupByStatement where
  step_ : Nat
  first_hit_ : Bool := true
  lowerbound_ : Nat := 0
  upperbound_ : Nat := 0
deriving DecidableEq, Repr

/-- The `GroupByStatement::put`: with a nonzero step, align the bucket on the
first sample, emit an `EMPTY` marker at `upperbound` when a timestamp
leaves the bucket (forward or backward) and advance the bounds by one
step; the sample itself is then forwarded.  Returns the updated state,
the samples passed to `next` in call order, and the returned flag. -/
def GroupByStatement.put (st : GroupByStatement) (sample : Sample)
    (next : Sample → Bool) : GroupByStatement × List Sample × Bool :=
  if st.step_ ≠ 0 then
    let ts := sample.timestamp
    let st :=
      if st.first_hit_ then
        let aligned := ts / st.step_ * st.step_
        { st with first_hit_ := false, lowerbound_ := aligned,
                  upperbound_ := wadd aligned st.step_ }
      else st
    if ts ≥ st.upperbound_ then
      let empty := { EMPTY_SAMPLE with timestamp := st.upperbound_ }
      if ¬ next empty then (st, [empty], false)
      else
        let st := { st with lowerbound_ := wadd st.lowerbound_ st.step_,
                            upperbound_ := wadd st.upperbound_ st.step_ }
        (st, [empty, sample], next sample)
    else if ts < st.lowerbound_ then
      let empty := { EMPTY_SAMPLE with timestamp := st.upperbound_ }
      if ¬ next empty then (st, [empty], false)
      else
        let st := { st with lowerbound_ := wsub st.lowerbound_ st.step_,
                            upperbound_ := wsub st.upperbound_ st.step_ }
        (st, [empty, sample], next sample)
    else (st, [sample], next sample)
  else (st, [sample], next sample)

/-- Feed a stream of samples through `GroupByStatement::put`, collecting
everything forwarded to `next`. -/
def GroupByStatement.run (next : Sample → Bool) (st : GroupByStatement) :
    List Sample → GroupByStatement × List Sample
  | [] => (st, [])
  | s :: rest =>
    let (st', out, _) := st.put s next
    let (st'', outs) := GroupByStatement.run next st' rest
    (st'', out ++ outs)

/-- Number of `EMPTY` marker samples in a stream. -/
def countEmptyMarkers (l : List Sample) : Nat :=
  (l.filter (fun s => s.payload == .EMPTY)).length

/-!  ## `MetadataQueryProcessor` (queryprocessor.cpp)

The root node is modelled as an event trace: each `put`/`complete` call
on it is recorded, and `accept` is its `put` result. -/

/-- An observable call on a pipeline node. -/
inductive NodeEvent where
  | putEvt (s : Sample)
  | completeEvt
  | errorEvt (st : Status)
deriving DecidableEq, Repr

/-- The `MetadataQueryProcessor::start`: one synthetic id-only
(`PARAMID_BIT`) sample per filter id, in order, stopping with `false`
when the root rejects one; returns the calls made on the root node and
the result. -/
def MetadataQueryProcessor.start (ids : List Nat)
    (accept : Sample → Bool) : List NodeEvent × Bool :=
  match ids with
  | [] => ([], true)
  | id :: rest =>
    let s : Sample := { paramid := id, timestamp := 0, payload := .PARAMID_BIT }
    if ¬ accept s then ([.putEvt s], false)
    else
      let (evts, ok) := MetadataQueryProcessor.start rest accept
      (.putEvt s :: evts, ok)

/-- The `MetadataQueryProcessor::put`: a no-op returning `false`. -/
def MetadataQueryProcessor.put (_sample : Sample) : Bool := false

/-- The `MetadataQueryProcessor::stop`: calls `complete` on the root node. -/
def MetadataQueryProcessor.stop : List NodeEvent := [.completeEvt]

/-!  ## Theorems about the embedded definitions -/

/-- A downstream node that accepts every sample. -/
def acceptAll : Sample → Bool := fun _ => true

/-- A query document carrying both a `select` and an `aggregate`
statement. -/
def doc_select_aggregate : PTree :=
  .node "" [("select", .node "cpu" []),
            ("aggregate", .node "" [("cpu", .node "cnt" [])])]

/-- A query document with a duplicated `select` statement. -/
def doc_duplicate_select : PTree :=
  .node "" [("select", .node "cpu" []), ("select", .node "mem" [])]

/-- A query document with an unknown top-level statement. -/
def doc_unknown_key : PTree := .node "" [("bogus", .node "" [])]

/-- Claim C1: `validate_query` is claimed to reject unknown keys,
duplicate keys and combinations of the mutually-exclusive statements with
`EQUERY_PARSING_ERROR`.  In the source the `keywords` set is never
populated, so only the unknown-key rejection is effective: a document
with both `select` and `aggregate`, and a document with two `select`
statements, are both accepted, while an unknown key is rejected. -/
theorem C1_validate_query_mutex_checks_dead :
    validate_query doc_select_aggregate = .AKU_SUCCESS ∧
    validate_query doc_duplicate_select = .AKU_SUCCESS ∧
    validate_query doc_unknown_key = .AKU_EQUERY_PARSING_ERROR := by
  decide

/-- The query document `{"limit": 2, "offset": 1}`. -/
def doc_limit2_offset1 : PTree :=
  .node "" [("limit", .node "2" []), ("offset", .node "1" [])]

/-- Samples fed to the limiter in claim C2. -/
def c2s1 : Sample := ⟨1, 10, .DATA⟩
/-- Second sample of claim C2. -/
def c2s2 : Sample := ⟨2, 20, .DATA⟩
/-- Third sample of claim C2. -/
def c2s3 : Sample := ⟨3, 30, .DATA⟩
/-- Fourth sample of claim C2. -/
def c2s4 : Sample := ⟨4, 40, .DATA⟩

/-- Claim C2: the claim says that `limit: 2, offset: 1` yields a
`Limiter(limit=2, offset=1)` which forwards the second and third of four
samples.  In the source `parse_limit_offset` stores the `offset` value
in the `limit` variable and never writes the `offset` variable, so the
topology contains `Limiter(limit=1, offset=0)`, which forwards only the
first sample and rejects the second `put`. -/
theorem C2_limit_offset_swapped :
    parse_limit_offset doc_limit2_offset1 = some (1, 0) ∧
    parse_processing_topology doc_limit2_offset1 =
      some (.AKU_SUCCESS, [.limiter 1 0, .terminal]) ∧
    Limiter.run acceptAll ⟨1, 0, 0⟩ [c2s1, c2s2, c2s3, c2s4] =
      ([c2s1], [true, false, false, false]) := by
  decide

/-- Samples fed to the reservoir in claim C3. -/
def c3s1 : Sample := ⟨1, 10, .DATA⟩
/-- Second sample of claim C3. -/
def c3s2 : Sample := ⟨2, 20, .DATA⟩
/-- Third sample of claim C3. -/
def c3s3 : Sample := ⟨3, 30, .DATA⟩
/-- Fourth sample of claim C3. -/
def c3s4 : Sample := ⟨4, 40, .DATA⟩

/-- Claim C3: the claim says the (k+1)-th sample (k samples seen, k ≥ N)
draws its index modulo k and discards the sample when the index reaches
N.  In the source the index is drawn modulo `samples_.size()`, which
stays at the capacity N once the buffer is full, so the guard
`ix < buffer_size_` always holds and the sample always replaces a slot.
With capacity 2, the fourth sample (k = 3 seen) and raw random value 2
overwrites slot 0 (`2 % 2 = 0`), although the claimed index `2 % 3 = 2`
is not below the capacity and would discard the sample. -/
theorem C3_reservoir_index_modulo_capacity :
    RandomSamplingNode.runPuts acceptAll ⟨2, []⟩
      [(c3s1, 0), (c3s2, 0), (c3s3, 5), (c3s4, 2)] = ⟨2, [c3s4, c3s3]⟩ ∧
    ¬ (2 % 3 < 2) := by
  decide

/-- Claim C5 (counterexample): the claim says
`MetadataQueryProcessor::start` emits the id samples "and then calls
complete on the pipeline".  For the filter id list `[7]` the calls made
by `start` on the root node are exactly one `put` of the synthetic
sample — no `complete` call occurs. -/
theorem C5_start_no_complete_counterexample :
    MetadataQueryProcessor.start [7] acceptAll =
      ([.putEvt ⟨0, 7, .PARAMID_BIT⟩], true) ∧
    NodeEvent.completeEvt ∉ (MetadataQueryProcessor.start [7] acceptAll).1 := by
  decide

/-- Claim C5 (amended): `start` emits one synthetic id-only
(`PARAMID_BIT`) sample per filter id, in order, and returns `true` when
the root accepts them all; as soon as the root rejects one `put`, `start`
stops right after that sample and returns `false`; `start` never calls
`complete` on the root for any id list and any root behaviour —
`complete` is issued by `stop` — and `put` is a no-op returning `false`
for every sample. -/
theorem C5_metadata_processor_amended :
    (∀ (ids : List Nat) (accept : Sample → Bool),
        (∀ id ∈ ids, accept ⟨0, id, .PARAMID_BIT⟩ = true) →
        MetadataQueryProcessor.start ids accept =
          (ids.map (fun id => NodeEvent.putEvt ⟨0, id, .PARAMID_BIT⟩),
            true)) ∧
    (∀ (ids1 : List Nat) (id : Nat) (ids2 : List Nat)
        (accept : Sample → Bool),
        (∀ x ∈ ids1, accept ⟨0, x, .PARAMID_BIT⟩ = true) →
        accept ⟨0, id, .PARAMID_BIT⟩ = false →
        MetadataQueryProcessor.start (ids1 ++ id :: ids2) accept =
          ((ids1 ++ [id]).map
            (fun i => NodeEvent.putEvt ⟨0, i, .PARAMID_BIT⟩), false)) ∧
    (∀ (ids : List Nat) (accept : Sample → Bool),
        NodeEvent.completeEvt ∉ (MetadataQueryProcessor.start ids accept).1) ∧
    (∀ s, MetadataQueryProcessor.put s = false) ∧
    MetadataQueryProcessor.stop = [NodeEvent.completeEvt] := by
  refine ⟨?_, ?_, ?_, fun _ => rfl, rfl⟩
  · intro ids accept
    induction ids with
    | nil => intro _; rfl
    | cons id rest ih =>
      intro hacc
      have h1 : accept ⟨0, id, .PARAMID_BIT⟩ = true :=
        hacc id (List.mem_cons_self _ _)
      have h2 := ih (fun x hx => hacc x (List.mem_cons_of_mem _ hx))
      simp [MetadataQueryProcessor.start, h1, h2]
  · intro ids1
    induction ids1 with
    | nil =>
      intro id ids2 accept _ hrej
      simp [MetadataQueryProcessor.start, hrej]
    | cons x rest ih =>
      intro id ids2 accept hacc hrej
      have hx : accept ⟨0, x, .PARAMID_BIT⟩ = true :=
        hacc x (List.mem_cons_self _ _)
      have h2 := ih id ids2 accept
        (fun y hy => hacc y (List.mem_cons_of_mem _ hy)) hrej
      simp [MetadataQueryProcessor.start, hx, h2]
  · intro ids accept
    induction ids with
    | nil => simp [MetadataQueryProcessor.start]
    | cons id rest ih =>
      by_cases hacc : accept ⟨0, id, .PARAMID_BIT⟩ = true
      · simp [MetadataQueryProcessor.start, hacc, ih]
      · simp [MetadataQueryProcessor.start, hacc]

/-- A root node for the C5 witness that accepts only the sample with
id 1. -/
def c5accept : Sample → Bool := fun s => s.paramid == 1

/-- Claim C5 (witness): the amended statement applied to an
all-accepting root over `[1, 2]`, to a root that rejects id 2 over
`[1, 2, 3]` (start stops after the rejected sample and returns false),
and to the no-complete part over `[1]`. -/
theorem C5_metadata_processor_amended_witness :
    MetadataQueryProcessor.start [1, 2] acceptAll =
      ([.putEvt ⟨0, 1, .PARAMID_BIT⟩, .putEvt ⟨0, 2, .PARAMID_BIT⟩], true) ∧
    MetadataQueryProcessor.start [1, 2, 3] c5accept =
      ([.putEvt ⟨0, 1, .PARAMID_BIT⟩, .putEvt ⟨0, 2, .PARAMID_BIT⟩], false) ∧
    NodeEvent.completeEvt ∉ (MetadataQueryProcessor.start [1] acceptAll).1 ∧
    MetadataQueryProcessor.put ⟨0, 0, .DATA⟩ = false ∧
    MetadataQueryProcessor.stop = [NodeEvent.completeEvt] :=
  ⟨C5_metadata_processor_amended.1 [1, 2] acceptAll (fun _ _ => rfl),
   C5_metadata_processor_amended.2.1 [1] 2 [3] c5accept
     (by decide) (by decide),
   C5_metadata_processor_amended.2.2.1 [1] acceptAll,
   C5_metadata_processor_amended.2.2.2.1 ⟨0, 0, .DATA⟩,
   C5_metadata_processor_amended.2.2.2.2⟩

/-- Claim C4 (counterexample): the claim says a monotone forward stream
with first timestamp 5, last timestamp 12 and step 10 yields
`⌊(12−5)/10⌋ = 0` EMPTY markers; the code aligns the bucket to
`[0, 10)` and emits one marker when 12 crosses the boundary. -/
theorem C4_marker_count_counterexample :
    countEmptyMarkers (GroupByStatement.run acceptAll { step_ := 10 }
      [⟨5, 1, .DATA⟩, ⟨12, 1, .DATA⟩]).2 = 1 ∧
    (12 - 5) / 10 = 0 := by
  decide

/-- Consecutive-sample condition for the amended group-by claim: the
stream moves forward and each sample lands in the current or the next
bucket (crosses at most one boundary). -/
def tsChainCond (s : Nat) (a b : Nat) : Prop :=
  a ≤ b ∧ b / s ≤ a / s + 1

/-- Last element of a timestamp list, with a default for the empty
list. -/
def lastTs (t : Nat) (l : List Nat) : Nat :=
  l.foldl (fun _ b => b) t

theorem lastTs_nil (t : Nat) : lastTs t [] = t := rfl

theorem lastTs_cons (t x : Nat) (l : List Nat) :
    lastTs t (x :: l) = lastTs x l := rfl

theorem chain_le_lastTs {s : Nat} :
    ∀ (l : List Nat) (t : Nat), List.Chain (tsChainCond s) t l →
      t ≤ lastTs t l
  | [], _, _ => Nat.le_refl _
  | x :: l, t, h => by
    rcases List.chain_cons.mp h with ⟨⟨hle, _⟩, hch⟩
    exact Nat.le_trans hle (by simpa [lastTs_cons] using chain_le_lastTs l x hch)

/-- One forward boundary crossing of `GroupByStatement::put` with an
accepting downstream: emits the marker at `upperbound` and advances the
bucket. -/
theorem GroupByStatement.put_forward_cross (s lb ub : Nat) (x : Sample)
    (hs : s ≠ 0) (h1 : x.timestamp ≥ ub)
    (hlb : lb + s < W64) (hub : ub + s < W64) :
    GroupByStatement.put ⟨s, false, lb, ub⟩ x acceptAll =
      (⟨s, false, lb + s, ub + s⟩, [⟨ub, 0, .EMPTY⟩, x], true) := by
  simp [GroupByStatement.put, hs, h1, acceptAll, EMPTY_SAMPLE,
    wadd_eq_add hlb, wadd_eq_add hub]

/-- A sample inside the current bucket is forwarded without a marker. -/
theorem GroupByStatement.put_forward_stay (s lb ub : Nat) (x : Sample)
    (hs : s ≠ 0) (h1 : ¬ x.timestamp ≥ ub) (h2 : ¬ x.timestamp < lb) :
    GroupByStatement.put ⟨s, false, lb, ub⟩ x acceptAll =
      (⟨s, false, lb, ub⟩, [x], true) := by
  simp [GroupByStatement.put, hs, h1, h2, acceptAll]

/-- The first sample aligns the bucket to `ts / step * step` and is
forwarded without a marker. -/
theorem GroupByStatement.put_first (s lb0 ub0 : Nat) (x : Sample)
    (hs : 0 < s) (hW : x.timestamp / s * s + s < W64) :
    GroupByStatement.put ⟨s, true, lb0, ub0⟩ x acceptAll =
      (⟨s, false, x.timestamp / s * s, x.timestamp / s * s + s⟩, [x], true) := by
  have hmod : x.timestamp / s * s + x.timestamp % s = x.timestamp := by
    rw [Nat.mul_comm]; exact Nat.div_add_mod _ _
  have hlt := Nat.mod_lt x.timestamp hs
  have h1 : ¬ x.timestamp ≥ x.timestamp / s * s + s := by omega
  have h2 : ¬ x.timestamp < x.timestamp / s * s := by omega
  simp [GroupByStatement.put, Nat.pos_iff_ne_zero.mp hs, wadd_eq_add hW,
    h1, h2, acceptAll]

theorem countEmptyMarkers_append (a b : List Sample) :
    countEmptyMarkers (a ++ b) = countEmptyMarkers a + countEmptyMarkers b := by
  simp [countEmptyMarkers]

/-- The main invariant of the forward group-by run: starting from the
bucket aligned on a virtual previous timestamp `t`, a monotone stream
that crosses at most one boundary per sample leaves the bucket aligned
on its last timestamp and emits one marker per crossed boundary. -/
theorem groupby_run_from_aligned (s : Nat) (hs : 0 < s) (hsB : s < 2 ^ 62) :
    ∀ (rest : List Sample) (t : Nat), t < 2 ^ 62 →
    (∀ x ∈ rest, x.timestamp < 2 ^ 62 ∧ x.payload ≠ .EMPTY) →
    List.Chain (tsChainCond s) t (rest.map (·.timestamp)) →
    (GroupByStatement.run acceptAll ⟨s, false, t / s * s, t / s * s + s⟩
        rest).1 =
      ⟨s, false, lastTs t (rest.map (·.timestamp)) / s * s,
        lastTs t (rest.map (·.timestamp)) / s * s + s⟩ ∧
    countEmptyMarkers
        (GroupByStatement.run acceptAll ⟨s, false, t / s * s, t / s * s + s⟩
          rest).2 =
      lastTs t (rest.map (·.timestamp)) / s - t / s
  | [], t, _, _, _ => by
    constructor
    · rfl
    · simp [GroupByStatement.run, countEmptyMarkers, lastTs_nil]
  | x :: rest, t, htB, hall, hchain => by
    have hx := hall x (List.mem_cons_self x rest)
    have hall' : ∀ y ∈ rest, y.timestamp < 2 ^ 62 ∧ y.payload ≠ .EMPTY :=
      fun y hy => hall y (List.mem_cons_of_mem x hy)
    rcases List.chain_cons.mp (by simpa using hchain) with ⟨⟨hle, hcross⟩, hch'⟩
    have hA_le : t / s * s ≤ t := Nat.div_mul_le_self t s
    have hmod : t / s * s + t % s = t := by
      rw [Nat.mul_comm]; exact Nat.div_add_mod _ _
    have hmodlt := Nat.mod_lt t hs
    have hexp : (t / s + 1) * s = t / s * s + s := by ring
    have hlbW : t / s * s + s < W64 := by
      simp only [W64]; omega
    have hubW : t / s * s + s + s < W64 := by
      simp only [W64]; omega
    by_cases hcase : x.timestamp ≥ t / s * s + s
    · -- boundary crossed: one marker, bucket advances
      have hdiv_eq : x.timestamp / s = t / s + 1 := by
        have hge : t / s + 1 ≤ x.timestamp / s :=
          (Nat.le_div_iff_mul_le hs).mpr (by rw [hexp]; omega)
        omega
      have hstep : GroupByStatement.put ⟨s, false, t / s * s, t / s * s + s⟩
          x acceptAll =
          (⟨s, false, t / s * s + s, t / s * s + s + s⟩,
            [⟨t / s * s + s, 0, .EMPTY⟩, x], true) :=
        GroupByStatement.put_forward_cross s _ _ x
          (Nat.pos_iff_ne_zero.mp hs) hcase hlbW hubW
      have hnewlb : t / s * s + s = x.timestamp / s * s := by
        rw [hdiv_eq]; ring
      have ih := groupby_run_from_aligned s hs hsB rest x.timestamp hx.1
        hall' hch'
      have hTle : x.timestamp ≤ lastTs x.timestamp (rest.map (·.timestamp)) :=
        chain_le_lastTs _ _ hch'
      have hTdiv : x.timestamp / s ≤
          lastTs x.timestamp (rest.map (·.timestamp)) / s :=
        Nat.div_le_div_right hTle
      simp only [GroupByStatement.run, hstep]
      rw [hnewlb]
      refine ⟨?_, ?_⟩
      · rw [List.map_cons, lastTs_cons]
        exact ih.1
      · rw [List.map_cons, lastTs_cons, countEmptyMarkers_append, ih.2]
        have hone : countEmptyMarkers
            [⟨x.timestamp / s * s, 0, .EMPTY⟩, x] = 1 := by
          simp [countEmptyMarkers, hx.2]
        rw [hone]
        omega
    · -- same bucket: no marker
      have hx_ge : ¬ x.timestamp < t / s * s := by omega
      have hdiv_eq : x.timestamp / s = t / s := by
        have h1 : x.timestamp / s < t / s + 1 :=
          (Nat.div_lt_iff_lt_mul hs).mpr (by rw [hexp]; omega)
        have h2 : t / s ≤ x.timestamp / s := Nat.div_le_div_right hle
        omega
      have hstep : GroupByStatement.put ⟨s, false, t / s * s, t / s * s + s⟩
          x acceptAll =
          (⟨s, false, t / s * s, t / s * s + s⟩, [x], true) :=
        GroupByStatement.put_forward_stay s _ _ x
          (Nat.pos_iff_ne_zero.mp hs) hcase hx_ge
      have ih := groupby_run_from_aligned s hs hsB rest x.timestamp hx.1
        hall' hch'
      rw [show x.timestamp / s * s = t / s * s from by rw [hdiv_eq]] at ih
      simp only [GroupByStatement.run, hstep]
      refine ⟨?_, ?_⟩
      · rw [List.map_cons, lastTs_cons]
        exact ih.1
      · rw [List.map_cons, lastTs_cons, countEmptyMarkers_append, ih.2]
        have hxne : x.payload ≠ .EMPTY := hx.2
        have : countEmptyMarkers [x] = 0 := by
          simp [countEmptyMarkers, hxne]
        rw [this, hdiv_eq]
        omega

/-- Claim C4 (amended): for a monotone forward stream whose samples cross
at most one bucket boundary each (timestamps and step below 2^62, so no
`u64` wraparound occurs), `GroupByStatement` with nonzero step `s` emits
exactly `ts_last / s − ts_first / s` EMPTY markers — not
`⌊(ts_last − ts_first) / s⌋` — and the first sample aligns the bucket to
`ts / step * step`. -/
theorem C4_groupby_marker_count_amended (s : Nat) (first : Sample)
    (rest : List Sample) (hs : 0 < s) (hsB : s < 2 ^ 62)
    (hall : ∀ x ∈ first :: rest, x.timestamp < 2 ^ 62 ∧ x.payload ≠ .EMPTY)
    (hchain : List.Chain (tsChainCond s) first.timestamp
      (rest.map (·.timestamp))) :
    countEmptyMarkers
        (GroupByStatement.run acceptAll { step_ := s } (first :: rest)).2 =
      lastTs first.timestamp (rest.map (·.timestamp)) / s -
        first.timestamp / s ∧
    (GroupByStatement.run acceptAll { step_ := s } [first]).1.lowerbound_ =
      first.timestamp / s * s := by
  have hfirst := hall first (List.mem_cons_self first rest)
  have hW : first.timestamp / s * s + s < W64 := by
    have := Nat.div_mul_le_self first.timestamp s
    simp only [W64]; omega
  have hput := GroupByStatement.put_first s 0 0 first hs hW
  have hall' : ∀ y ∈ rest, y.timestamp < 2 ^ 62 ∧ y.payload ≠ .EMPTY :=
    fun y hy => hall y (List.mem_cons_of_mem first hy)
  have hmain := groupby_run_from_aligned s hs hsB rest first.timestamp
    hfirst.1 hall' hchain
  constructor
  · show countEmptyMarkers
        (GroupByStatement.run acceptAll ⟨s, true, 0, 0⟩ (first :: rest)).2 = _
    simp only [GroupByStatement.run, hput, countEmptyMarkers_append, hmain.2]
    have : countEmptyMarkers [first] = 0 := by
      simp [countEmptyMarkers, hfirst.2]
    rw [this, Nat.zero_add]
  · show (GroupByStatement.run acceptAll ⟨s, true, 0, 0⟩ [first]).1.lowerbound_ = _
    simp [GroupByStatement.run, hput]

/-- Claim C4 (witness): the amended statement applied to the stream with
timestamps `[5, 12, 25]` and step 10: buckets `[0,10)`, `[10,20)`,
`[20,30)` — two markers, `25/10 − 5/10 = 2`. -/
theorem C4_groupby_marker_count_amended_witness :
    countEmptyMarkers (GroupByStatement.run acceptAll { step_ := 10 }
      [⟨5, 1, .DATA⟩, ⟨12, 1, .DATA⟩, ⟨25, 1, .DATA⟩]).2 = 2 := by
  have h := C4_groupby_marker_count_amended 10 ⟨5, 1, .DATA⟩
    [⟨12, 1, .DATA⟩, ⟨25, 1, .DATA⟩] (by decide) (by decide)
    (by
      intro x hx
      fin_cases hx <;> exact ⟨by decide, by decide⟩)
    (by
      constructor
      · exact ⟨by decide, by decide⟩
      · constructor
        · exact ⟨by decide, by decide⟩
        · exact List.Chain.nil)
  simpa using h.1

theorem drainSamples_acceptAll : ∀ l : List Sample,
    drainSamples acceptAll l = (l, true)
  | [] => rfl
  | s :: rest => by
    simp [drainSamples, acceptAll, drainSamples_acceptAll rest]

/-- With an accepting downstream, `flush` forwards the sorted buffer and
clears it. -/
theorem RandomSamplingNode.flush_acceptAll (node : RandomSamplingNode) :
    node.flush acceptAll =
      ({ node with samples_ := [] },
        node.samples_.insertionSort sampleLe, true) := by
  simp [RandomSamplingNode.flush, drainSamples_acceptAll]

/-- Feeding non-marker samples keeps the buffer at
`min (initial + seen) capacity` samples. -/
theorem RandomSamplingNode.runPuts_length :
    ∀ (inputs : List (Sample × Nat)) (node : RandomSamplingNode),
      (∀ p ∈ inputs, (p.1 : Sample).payload ≠ .EMPTY) →
      node.samples_.length ≤ node.buffer_size_ →
      (RandomSamplingNode.runPuts acceptAll node inputs).samples_.length =
        min (node.samples_.length + inputs.length) node.buffer_size_
  | [], node, _, hle => by
    simp [RandomSamplingNode.runPuts]
    omega
  | (s, r) :: rest, node, hne, hle => by
    have hs : s.payload ≠ .EMPTY := hne (s, r) (List.mem_cons_self _ _)
    have hne' : ∀ p ∈ rest, (p.1 : Sample).payload ≠ .EMPTY :=
      fun p hp => hne p (List.mem_cons_of_mem _ hp)
    by_cases hlen : node.samples_.length < node.buffer_size_
    · have := RandomSamplingNode.runPuts_length rest
        { node with samples_ := node.samples_ ++ [s] } hne'
        (by simp; omega)
      simp only [RandomSamplingNode.runPuts, RandomSamplingNode.put, hs,
        if_neg hs, hlen, if_pos hlen] at this ⊢
      simp at this
      simp [this]
      omega
    · by_cases hix : r % node.samples_.length < node.buffer_size_
      · have := RandomSamplingNode.runPuts_length rest
          { node with samples_ := node.samples_.set (r % node.samples_.length) s }
          hne' (by simp; omega)
        simp only [RandomSamplingNode.runPuts, RandomSamplingNode.put, hs,
          if_neg hs, hlen, if_neg hlen, hix, if_pos hix] at this ⊢
        simp at this
        simp [this]
        omega
      · have := RandomSamplingNode.runPuts_length rest node hne' hle
        simp only [RandomSamplingNode.runPuts, RandomSamplingNode.put, hs,
          if_neg hs, hlen, if_neg hlen, hix, if_neg hix] at this ⊢
        simp [this]
        omega

/-- Every buffered sample came from the initial buffer or the fed
samples. -/
theorem RandomSamplingNode.runPuts_mem :
    ∀ (inputs : List (Sample × Nat)) (node : RandomSamplingNode)
      (x : Sample),
      (∀ p ∈ inputs, (p.1 : Sample).payload ≠ .EMPTY) →
      x ∈ (RandomSamplingNode.runPuts acceptAll node inputs).samples_ →
      x ∈ node.samples_ ∨ x ∈ inputs.map (·.1)
  | [], node, x, _, hx => by
    simp only [RandomSamplingNode.runPuts] at hx
    exact Or.inl hx
  | (s, r) :: rest, node, x, hne, hx => by
    have hs : s.payload ≠ .EMPTY := hne (s, r) (List.mem_cons_self _ _)
    have hne' : ∀ p ∈ rest, (p.1 : Sample).payload ≠ .EMPTY :=
      fun p hp => hne p (List.mem_cons_of_mem _ hp)
    by_cases hlen : node.samples_.length < node.buffer_size_
    · simp only [RandomSamplingNode.runPuts, RandomSamplingNode.put, hs,
        if_neg hs, hlen, if_pos hlen] at hx
      rcases RandomSamplingNode.runPuts_mem rest _ x hne' hx with h | h
      · rcases List.mem_append.mp h with h2 | h2
        · exact Or.inl h2
        · simp at h2
          subst h2
          exact Or.inr (by simp)
      · exact Or.inr (by simp [h])
    · by_cases hix : r % node.samples_.length < node.buffer_size_
      · simp only [RandomSamplingNode.runPuts, RandomSamplingNode.put, hs,
          if_neg hs, hlen, if_neg hlen, hix, if_pos hix] at hx
        rcases RandomSamplingNode.runPuts_mem rest _ x hne' hx with h | h
        · rcases List.mem_or_eq_of_mem_set h with h2 | h2
          · exact Or.inl h2
          · subst h2
            exact Or.inr (by simp)
        · exact Or.inr (by simp [h])
      · simp only [RandomSamplingNode.runPuts, RandomSamplingNode.put, hs,
          if_neg hs, hlen, if_neg hlen, hix, if_neg hix] at hx
        rcases RandomSamplingNode.runPuts_mem rest node x hne' hx with h | h
        · exact Or.inl h
        · exact Or.inr (by simp [h])

/-- Claim C8: after `L ≥ C` non-marker samples since the last flush, a
flush into an accepting downstream forwards exactly `C` samples, sorted
ascending by `(timestamp, paramid)`, each of them one of the fed samples,
and clears the buffer. -/
theorem C8_flush_sorted_drain (C : Nat) (inputs : List (Sample × Nat))
    (hC : 0 < C) (hL : C ≤ inputs.length)
    (hne : ∀ p ∈ inputs, (p.1 : Sample).payload ≠ .EMPTY) :
    (RandomSamplingNode.flush acceptAll
        (RandomSamplingNode.runPuts acceptAll ⟨C, []⟩ inputs)).2.1.length = C ∧
    List.Sorted sampleLe
      (RandomSamplingNode.flush acceptAll
        (RandomSamplingNode.runPuts acceptAll ⟨C, []⟩ inputs)).2.1 ∧
    (∀ x ∈ (RandomSamplingNode.flush acceptAll
        (RandomSamplingNode.runPuts acceptAll ⟨C, []⟩ inputs)).2.1,
      x ∈ inputs.map (·.1)) ∧
    (RandomSamplingNode.flush acceptAll
      (RandomSamplingNode.runPuts acceptAll ⟨C, []⟩ inputs)).1.samples_ = [] ∧
    (RandomSamplingNode.flush acceptAll
      (RandomSamplingNode.runPuts acceptAll ⟨C, []⟩ inputs)).2.2 = true := by
  set node := RandomSamplingNode.runPuts acceptAll ⟨C, []⟩ inputs with hnode
  have hlen : node.samples_.length = C := by
    rw [hnode, RandomSamplingNode.runPuts_length inputs ⟨C, []⟩ hne
      (by simp)]
    simp
    omega
  rw [RandomSamplingNode.flush_acceptAll node]
  refine ⟨?_, ?_, ?_, rfl, rfl⟩
  · rw [(List.perm_insertionSort sampleLe node.samples_).length_eq, hlen]
  · exact List.sorted_insertionSort sampleLe node.samples_
  · intro x hx
    have hx' : x ∈ node.samples_ :=
      (List.perm_insertionSort sampleLe node.samples_).mem_iff.mp hx
    rcases RandomSamplingNode.runPuts_mem inputs ⟨C, []⟩ x hne hx' with h | h
    · simp at h
    · exact h

/-- Samples fed to the reservoir in the C8 witness. -/
def c8inputs : List (Sample × Nat) :=
  [(⟨3, 30, .DATA⟩, 0), (⟨1, 10, .DATA⟩, 0), (⟨2, 20, .DATA⟩, 7)]

/-- Claim C8 (witness): the flush theorem applied to capacity 2 and three
concrete samples. -/
theorem C8_flush_sorted_drain_witness :
    (RandomSamplingNode.flush acceptAll
        (RandomSamplingNode.runPuts acceptAll ⟨2, []⟩ c8inputs)).2.1.length = 2 ∧
    List.Sorted sampleLe
      (RandomSamplingNode.flush acceptAll
        (RandomSamplingNode.runPuts acceptAll ⟨2, []⟩ c8inputs)).2.1 ∧
    (∀ x ∈ (RandomSamplingNode.flush acceptAll
        (RandomSamplingNode.runPuts acceptAll ⟨2, []⟩ c8inputs)).2.1,
      x ∈ c8inputs.map (·.1)) ∧
    (RandomSamplingNode.flush acceptAll
      (RandomSamplingNode.runPuts acceptAll ⟨2, []⟩ c8inputs)).1.samples_ = [] ∧
    (RandomSamplingNode.flush acceptAll
      (RandomSamplingNode.runPuts acceptAll ⟨2, []⟩ c8inputs)).2.2 = true :=
  C8_flush_sorted_drain 2 c8inputs (by decide) (by decide)
    (by intro p hp; fin_cases hp <;> decide)


theorem lookup_tail_ids_length (matcher : SeriesMatcher)
    (first_metric metric : String) :
    ∀ (ids : List Nat) (l : List Nat),
      lookup_tail_ids matcher first_metric metric ids = .ok l →
      l.length = ids.length
  | [], l, h => by
    have h' := Except.ok.inj h
    simp [← h']
  | id :: rest, l, h => by
    simp only [lookup_tail_ids] at h
    split at h
    · exact Except.noConfusion h
    · cases hrec : lookup_tail_ids matcher first_metric metric rest with
      | error e => rw [hrec] at h; exact Except.noConfusion h
      | ok sids =>
        rw [hrec] at h
        have h' := Except.ok.inj h
        rw [← h']
        simp [lookup_tail_ids_length matcher first_metric metric rest sids hrec]

theorem extract_ids_tail_length (matcher : SeriesMatcher)
    (first_metric : String) (ids : List Nat) :
    ∀ (tail : List String) (l : List Nat),
      extract_ids_tail matcher first_metric ids tail = .ok l →
      l.length = tail.length * ids.length
  | [], l, h => by
    have h' := Except.ok.inj h
    simp [← h']
  | metric :: more, l, h => by
    simp only [extract_ids_tail] at h
    cases h1 : lookup_tail_ids matcher first_metric metric ids with
    | error e => rw [h1] at h; exact Except.noConfusion h
    | ok sids =>
      rw [h1] at h
      cases h2 : extract_ids_tail matcher first_metric ids more with
      | error e => rw [h2] at h; exact Except.noConfusion h
      | ok rest =>
        rw [h2] at h
        have h' := Except.ok.inj h
        rw [← h']
        simp [lookup_tail_ids_length matcher first_metric metric ids sids h1,
          extract_ids_tail_length matcher first_metric ids more rest h2]
        ring

theorem lookup_tail_ids_error (matcher : SeriesMatcher)
    (first_metric metric : String) :
    ∀ (ids : List Nat) (e : String),
      lookup_tail_ids matcher first_metric metric ids = .error e →
      e = "Matcher data is broken"
  | [], e, h => by exact Except.noConfusion h
  | id :: rest, e, h => by
    simp only [lookup_tail_ids] at h
    split at h
    · exact (Except.error.inj h).symm
    · cases hrec : lookup_tail_ids matcher first_metric metric rest with
      | error e2 =>
        rw [hrec] at h
        have h' := Except.error.inj h
        rw [← h']
        exact lookup_tail_ids_error matcher first_metric metric rest e2 hrec
      | ok sids => rw [hrec] at h; exact Except.noConfusion h

theorem extract_ids_tail_error (matcher : SeriesMatcher)
    (first_metric : String) (ids : List Nat) :
    ∀ (tail : List String) (e : String),
      extract_ids_tail matcher first_metric ids tail = .error e →
      e = "Matcher data is broken"
  | [], e, h => by exact Except.noConfusion h
  | metric :: more, e, h => by
    simp only [extract_ids_tail] at h
    cases h1 : lookup_tail_ids matcher first_metric metric ids with
    | error e1 =>
      rw [h1] at h
      have h' := Except.error.inj h
      rw [← h']
      exact lookup_tail_ids_error matcher first_metric metric ids e1 h1
    | ok sids =>
      rw [h1] at h
      cases h2 : extract_ids_tail matcher first_metric ids more with
      | error e2 =>
        rw [h2] at h
        have h' := Except.error.inj h
        rw [← h']
        exact extract_ids_tail_error matcher first_metric ids more e2 h2
      | ok rest => rw [h2] at h; exact Except.noConfusion h

/-- The divisibility invariant of `extract_ids`: with `k` metrics the
resolved id list has `k · n` entries. -/
theorem extract_ids_length_mod (matcher : SeriesMatcher)
    (r : SeriesRetreiver) (st : Status) (ids : List Nat)
    (hm : r.metric_ ≠ []) (h : r.extract_ids matcher = .ok (st, ids)) :
    ids.length % r.metric_.length = 0 := by
  rcases hmet : r.metric_ with _ | ⟨fm, tail⟩
  · exact absurd hmet hm
  · simp only [SeriesRetreiver.extract_ids, hmet] at h
    by_cases htail : tail.isEmpty
    · rw [if_pos htail] at h
      have : tail = [] := List.isEmpty_iff.mp htail
      subst this
      simp [Nat.mod_one]
    · rw [if_neg htail] at h
      set I : List Nat :=
        (if r.tags_.isEmpty = true then
          (matcher.regex_match (fm ++ TAG_PATTERN)).map (·.2)
        else
          (matcher.regex_match
            (fm ++ String.join
              (r.tags_.map (fun kv => tag_alternation kv.1 kv.2)))).map
            (·.2)) with hI
      cases h2 : extract_ids_tail matcher fm I tail with
      | error e => rw [h2] at h; exact Except.noConfusion h
      | ok tailIds =>
        rw [h2] at h
        have h' := Except.ok.inj h
        have hids : I ++ tailIds = ids := congrArg Prod.snd h'
        have hlen := extract_ids_tail_length matcher fm I tail tailIds h2
        rw [← hids]
        simp only [List.length_append, List.length_cons, hlen]
        have hfac : I.length + tail.length * I.length =
            I.length * (tail.length + 1) := by ring
        rw [hfac, Nat.mul_mod_left]

theorem add_tag_metric (r : SeriesRetreiver) (n v : String) :
    (r.add_tag n v).2.metric_ = r.metric_ := by
  simp only [SeriesRetreiver.add_tag]
  split
  · rfl
  · split <;> rfl

theorem add_tags_metric (r : SeriesRetreiver) (n : String)
    (vs : List String) : (r.add_tags n vs).2.metric_ = r.metric_ := by
  simp only [SeriesRetreiver.add_tags]
  split
  · rfl
  · split <;> rfl

theorem where_fold_metric :
    ∀ (w : List (String × PTree)) (r : SeriesRetreiver),
      (where_fold r w).metric_ = r.metric_
  | [], _ => rfl
  | (tag, v) :: rest, r => by
    simp only [where_fold]
    split
    · rw [where_fold_metric rest _, add_tags_metric]
    · rw [where_fold_metric rest _, add_tag_metric]

theorem extract_ids_error (matcher : SeriesMatcher) (r : SeriesRetreiver)
    (e : String) (h : r.extract_ids matcher = .error e) :
    e = "Matcher data is broken" := by
  rcases hmet : r.metric_ with _ | ⟨fm, tail⟩
  · rw [SeriesRetreiver.extract_ids, hmet] at h
    exact Except.noConfusion h
  · simp only [SeriesRetreiver.extract_ids, hmet] at h
    by_cases htail : tail.isEmpty
    · rw [if_pos htail] at h
      exact Except.noConfusion h
    · rw [if_neg htail] at h
      set I : List Nat :=
        (if r.tags_.isEmpty = true then
          (matcher.regex_match (fm ++ TAG_PATTERN)).map (·.2)
        else
          (matcher.regex_match
            (fm ++ String.join
              (r.tags_.map (fun kv => tag_alternation kv.1 kv.2)))).map
            (·.2)) with hI
      cases h2 : extract_ids_tail matcher fm I tail with
      | error e2 =>
        rw [h2] at h
        have h' := Except.error.inj h
        rw [← h']
        exact extract_ids_tail_error matcher fm I tail e2 h2
      | ok tailIds => rw [h2] at h; exact Except.noConfusion h

theorem parse_where_clause_div (p : PTree) (metrics : List String)
    (matcher : SeriesMatcher) (st : Status) (ids : List Nat)
    (hm : metrics ≠ [])
    (h : parse_where_clause p metrics matcher = .ok (st, ids)) :
    ids.length % metrics.length = 0 := by
  unfold parse_where_clause at h
  simp only at h
  split at h
  · split at h
    · exact absurd (List.isEmpty_iff.mp (by assumption)) hm
    · have hmet : ∀ w : PTree,
          (where_fold { metric_ := metrics } w.children).metric_ =
          metrics := fun w => where_fold_metric w.children _
      rename_i x w heq hcond
      have hres := extract_ids_length_mod matcher _ st ids
        (by rw [hmet w]; exact hm) h
      rwa [hmet w] at hres
  · split at h
    · exact extract_ids_length_mod matcher { metric_ := metrics } st ids
        (by simpa using hm) h
    · rename_i hne
      exact absurd (List.isEmpty_iff.mp (by simpa using hne)) hm

theorem parse_where_clause_error (p : PTree) (metrics : List String)
    (matcher : SeriesMatcher) (e : String)
    (h : parse_where_clause p metrics matcher = .error e) :
    e = "Matcher data is broken" := by
  unfold parse_where_clause at h
  split at h
  · split at h
    · exact Except.noConfusion h
    · exact extract_ids_error matcher _ e h
  · split at h
    · exact extract_ids_error matcher _ e h
    · exact extract_ids_error matcher _ e h

theorem parse_join_stmt_ne_nil (p : PTree) (metrics : List String)
    (h : parse_join_stmt p = (.AKU_SUCCESS, metrics)) : metrics ≠ [] := by
  unfold parse_join_stmt at h
  simp only at h
  split at h
  · split at h
    · exact absurd (congrArg Prod.fst h) (by simp)
    · rename_i hne
      have h2 := congrArg Prod.snd h
      simp only at h2
      intro hnil
      rw [h2, hnil] at hne
      simp at hne
  · exact absurd (congrArg Prod.fst h) (by simp)

theorem init_matcher_in_join_query_error (matcher : SeriesMatcher)
    (metric_names : List String) (req : ReshapeRequest) (e : String)
    (h : init_matcher_in_join_query matcher metric_names req = .error e) :
    e = "unreachable: size checks" := by
  unfold init_matcher_in_join_query at h
  split at h
  · exact Except.noConfusion h
  · split at h
    · exact Except.noConfusion h
    · split at h
      · split at h <;> exact Except.noConfusion h
      · exact (Except.error.inj h).symm

/-- Claim C7: the where-clause resolver produces an id list whose length
is divisible by the metric count, and `parse_join_query` can therefore
never reach its `AKU_PANIC` on a nonzero remainder — a nonzero remainder
would be a programming error, not a user error. -/
theorem C7_join_ids_divisibility :
    (∀ (matcher : SeriesMatcher) (r : SeriesRetreiver) (st : Status)
        (ids : List Nat), r.metric_ ≠ [] →
        r.extract_ids matcher = .ok (st, ids) →
        ids.length % r.metric_.length = 0) ∧
    (∀ (ext : ExternalFns) (matcher : SeriesMatcher) (p : PTree),
        QueryParser.parse_join_query ext matcher p ≠
          .error "Invalid where statement processing results") := by
  constructor
  · exact fun matcher r st ids hm h =>
      extract_ids_length_mod matcher r st ids hm h
  · intro ext matcher p h
    unfold QueryParser.parse_join_query at h
    cases hv : validate_query p <;> rw [hv] at h
    all_goals try exact Except.noConfusion h
    rcases hjs : parse_join_stmt p with ⟨st1, metrics⟩
    rw [hjs] at h
    cases st1 <;> try exact Except.noConfusion h
    rcases hob : parse_orderby p with ⟨st2, order⟩
    rw [hob] at h
    cases st2 <;> try exact Except.noConfusion h
    simp only at h
    cases hw : parse_where_clause p metrics matcher with
    | error e =>
      rw [hw] at h
      have hbroken := parse_where_clause_error p metrics matcher e hw
      rw [Except.error.inj h] at hbroken
      exact absurd hbroken (by decide)
    | ok pair =>
      rw [hw] at h
      rcases pair with ⟨st3, ids⟩
      cases st3 <;> try exact Except.noConfusion h
      rcases hr : parse_range_timestamp ext.from_iso_string p with ⟨st4, tb, te⟩
      rw [hr] at h
      cases st4 <;> try exact Except.noConfusion h
      have hne := parse_join_stmt_ne_nil p metrics hjs
      have hdiv := parse_where_clause_div p metrics matcher _ ids hne hw
      by_cases hmod : ids.length % metrics.length ≠ 0
      · exact absurd hdiv hmod
      · simp only at h
        rw [if_neg hmod] at h
        split at h
        · rename_i e2 hinit
          have hun := init_matcher_in_join_query_error matcher _ _ _ hinit
          rw [Except.error.inj h] at hun
          exact absurd hun (by decide)
        · exact Except.noConfusion h
        · exact Except.noConfusion h

/-- Concrete external helpers for witnesses: `cnt` is the only known
aggregation function, `0s` the only parsable duration, and every ISO
timestamp reads as 42. -/
def extTest : ExternalFns :=
  { agg_from_string := fun s =>
      if s = "cnt" then (.AKU_SUCCESS, .CNT) else (.AKU_EBAD_ARG, .CNT)
    agg_to_string := fun _ => "cnt"
    parse_duration := fun s => if s = "0s" then some 0 else none
    from_iso_string := fun _ => some 42
    group_by_tag := fun _ _ => {} }

/-- A concrete matcher with an empty catalog, for witnesses. -/
def matcherTest : SeriesMatcher :=
  { all_ids := []
    regex_match := fun _ => []
    id2str := fun _ => ""
    match_name := fun _ => 0 }

/-- A concrete matcher for the C7 witness: one `cpu` series whose `mem`
counterpart resolves to id 2. -/
def c7matcher : SeriesMatcher :=
  { all_ids := [1, 2]
    regex_match := fun _ => [("cpu a=b", 1)]
    id2str := fun id => if id = 1 then "cpu a=b" else ""
    match_name := fun _ => 2 }

/-- The two-metric retriever of the C7 witness. -/
def c7r : SeriesRetreiver := { metric_ := ["cpu", "mem"] }

/-- Claim C7 (witness): the divisibility statement applied to the
two-metric retriever (`2 % 2 = 0`), and the no-panic statement applied to
a concrete document. -/
theorem C7_join_ids_divisibility_witness :
    c7r.metric_ ≠ [] ∧
    c7r.extract_ids c7matcher = .ok (.AKU_SUCCESS, [1, 2]) ∧
    ([1, 2] : List Nat).length % c7r.metric_.length = 0 ∧
    QueryParser.parse_join_query extTest c7matcher (.node "" []) ≠
      .error "Invalid where statement processing results" :=
  ⟨by decide, by rfl,
   C7_join_ids_divisibility.1 c7matcher c7r .AKU_SUCCESS [1, 2]
     (by decide) (by rfl),
   C7_join_ids_divisibility.2 extTest c7matcher (.node "" [])⟩

/-- Claim C9: when `parse_group_aggregate_stmt` succeeds but the parsed
statement has a zero step or an empty function list,
`parse_group_aggregate_query` returns the prevailing status
`AKU_SUCCESS` together with the value-initialized request, instead of
`EQUERY_PARSING_ERROR`. -/
theorem C9_group_aggregate_guard_returns_success (ext : ExternalFns)
    (matcher : SeriesMatcher) (p : PTree) (gagg : GroupAggregate)
    (hv : validate_query p = .AKU_SUCCESS)
    (hstmt : parse_group_aggregate_stmt ext p = (.AKU_SUCCESS, gagg))
    (hguard : gagg.step = 0 ∨ gagg.func = []) :
    QueryParser.parse_group_aggregate_query ext matcher p =
      .ok (.AKU_SUCCESS, ReshapeRequest.empty) := by
  unfold QueryParser.parse_group_aggregate_query
  rw [hv, hstmt]
  simp only
  rcases hguard with hstep | hfunc
  · by_cases hfe : gagg.func.isEmpty
    · simp [hfe]
    · simp [hfe, hstep]
  · simp [hfunc]

/-- The C9 witness document: a `group-aggregate` statement whose `step`
parses to the zero duration. -/
def c9doc : PTree :=
  .node "" [("group-aggregate", .node ""
    [("step", .node "0s" []),
     ("metric", .node "x" []),
     ("func", .node "" [("", .node "cnt" [])])])]

/-- Claim C9 (witness): the guard statement applied to the zero-step
document. -/
theorem C9_group_aggregate_guard_witness :
    validate_query c9doc = .AKU_SUCCESS ∧
    parse_group_aggregate_stmt extTest c9doc =
      (.AKU_SUCCESS, { metric := "x", func := [.CNT], step := 0 }) ∧
    QueryParser.parse_group_aggregate_query extTest matcherTest c9doc =
      .ok (.AKU_SUCCESS, ReshapeRequest.empty) :=
  ⟨by decide, by decide,
   C9_group_aggregate_guard_returns_success extTest matcherTest c9doc
     { metric := "x", func := [.CNT], step := 0 }
     (by decide) (by decide) (Or.inl rfl)⟩

theorem parse_groupby_eq (p : PTree) :
    parse_groupby p = (.AKU_SUCCESS, (parse_groupby p).2) := by
  cases hg : p.get_child_optional "group-by" <;> simp [parse_groupby, hg]

/-- Claim C6: an aggregate query with an explicit `order-by` statement is
rejected with `EQUERY_PARSING_ERROR`; every accepted aggregate query has
`order_by = SERIES`; and the plan builder treats an aggregate request
ordered by time as a fatal construction error. -/
theorem C6_aggregate_order_by :
    (∀ (ext : ExternalFns) (matcher : SeriesMatcher) (p : PTree)
        (metric fn : String) (func : AggregationFunction),
        validate_query p = .AKU_SUCCESS →
        parse_aggregate_stmt p = (.AKU_SUCCESS, metric, fn) →
        ext.agg_from_string fn = (.AKU_SUCCESS, func) →
        (p.get_child_optional "order-by").isSome →
        QueryParser.parse_aggregate_query ext matcher p =
          .ok (.AKU_EQUERY_PARSING_ERROR, ReshapeRequest.empty)) ∧
    (∀ (ext : ExternalFns) (matcher : SeriesMatcher) (p : PTree)
        (req : ReshapeRequest),
        QueryParser.parse_aggregate_query ext matcher p =
          .ok (.AKU_SUCCESS, req) →
        req.order_by = .SERIES) ∧
    (∀ req : ReshapeRequest, req.order_by = .TIME →
        create_aggregate req = .error "Invalid request") := by
  refine ⟨?_, ?_, ?_⟩
  · intro ext matcher p metric fn func hv hstmt hfrom hob
    obtain ⟨ob, hob'⟩ := Option.isSome_iff_exists.mp hob
    unfold QueryParser.parse_aggregate_query
    rw [hv, hstmt]
    simp only
    rw [hfrom]
    simp only
    rw [parse_groupby_eq p]
    simp only
    rw [hob']
  · intro ext matcher p req h
    unfold QueryParser.parse_aggregate_query at h
    cases hv : validate_query p <;> rw [hv] at h
    all_goals try exact
      Status.noConfusion (congrArg Prod.fst (Except.ok.inj h))
    rcases hstmt : parse_aggregate_stmt p with ⟨st1, metric, fn⟩
    rw [hstmt] at h
    cases st1 <;> try exact
      Status.noConfusion (congrArg Prod.fst (Except.ok.inj h))
    simp only at h
    rcases hfrom : ext.agg_from_string fn with ⟨st2, func⟩
    rw [hfrom] at h
    cases st2 <;> try exact
      Status.noConfusion (congrArg Prod.fst (Except.ok.inj h))
    simp only at h
    rcases hgb : parse_groupby p with ⟨st3, tags⟩
    rw [hgb] at h
    cases st3 <;> try exact
      Status.noConfusion (congrArg Prod.fst (Except.ok.inj h))
    simp only at h
    cases hob : p.get_child_optional "order-by" with
    | some ob =>
      rw [hob] at h
      exact Status.noConfusion (congrArg Prod.fst (Except.ok.inj h))
    | none =>
      rw [hob] at h
      cases hw : parse_where_clause p [metric] matcher with
      | error e => rw [hw] at h; exact Except.noConfusion h
      | ok pair =>
        rw [hw] at h
        rcases pair with ⟨st4, ids⟩
        cases st4 <;> try exact
          Status.noConfusion (congrArg Prod.fst (Except.ok.inj h))
        rcases hr : parse_range_timestamp ext.from_iso_string p with
          ⟨st5, tb, te⟩
        rw [hr] at h
        cases st5 <;> try exact
          Status.noConfusion (congrArg Prod.fst (Except.ok.inj h))
        have hreq := congrArg Prod.snd (Except.ok.inj h)
        simp only at hreq
        rw [← hreq]
        split <;> rfl
  · intro req h
    simp [create_aggregate, h]

/-- The C6 witness document with a forbidden `order-by`. -/
def c6docA : PTree :=
  .node "" [("aggregate", .node "" [("cpu", .node "cnt" [])]),
            ("order-by", .node "time" [])]

/-- The C6 witness document for a successful aggregate query. -/
def c6docB : PTree :=
  .node "" [("aggregate", .node "" [("cpu", .node "cnt" [])]),
            ("range", .node "" [("from", .node "20150101T000000" []),
                                ("to", .node "20150102T000000" [])])]

/-- The request produced for `c6docB`. -/
def c6reqB : ReshapeRequest :=
  { select := { begin_ := 42, end_ := 42, columns := [{ ids := [] }],
                matcher := none }
    agg := { enabled := true, step := 0, func := [.CNT] }
    order_by := .SERIES
    group_by := {} }

/-- An aggregate request ordered by time, for the plan-builder part of
the C6 witness. -/
def c6reqTime : ReshapeRequest := { order_by := OrderBy.TIME }

/-- Claim C6 (witness): the three parts applied to concrete documents
and requests. -/
theorem C6_aggregate_order_by_witness :
    QueryParser.parse_aggregate_query extTest matcherTest c6docA =
      .ok (.AKU_EQUERY_PARSING_ERROR, ReshapeRequest.empty) ∧
    QueryParser.parse_aggregate_query extTest matcherTest c6docB =
      .ok (.AKU_SUCCESS, c6reqB) ∧
    c6reqB.order_by = .SERIES ∧
    create_aggregate c6reqTime = .error "Invalid request" :=
  ⟨C6_aggregate_order_by.1 extTest matcherTest c6docA "cpu" "cnt" .CNT
     (by decide) (by decide) (by decide) (by decide),
   by rfl,
   C6_aggregate_order_by.2.1 extTest matcherTest c6docB c6reqB (by rfl),
   C6_aggregate_order_by.2.2 c6reqTime rfl⟩

/-- Key membership in a seen-key list. -/
def seenContains (seen : List String) (k : String) : Bool :=
  seen.any (fun s => s == k)

/-- Drop every `where` item whose tag key was already seen (keeping the
first occurrence of each key). -/
def dedupTags (seen : List String) : List (String × PTree) → List (String × PTree)
  | [] => []
  | (k, v) :: rest =>
    if seenContains seen k then dedupTags seen rest
    else (k, v) :: dedupTags (k :: seen) rest

theorem seenContains_map_fst (k : String) :
    ∀ m : List (String × List String),
      seenContains (m.map (·.1)) k = mapContains k m
  | [] => rfl
  | kv :: rest => by
    simp only [seenContains, mapContains, List.map_cons, List.any_cons]
    rw [show ((rest.map (·.1)).any fun s => s == k) =
        seenContains (rest.map (·.1)) k from rfl,
      seenContains_map_fst k rest]
    rfl

theorem dedupTags_congr (l : List (String × PTree)) :
    ∀ (seen1 seen2 : List String),
      (∀ x, seenContains seen1 x = seenContains seen2 x) →
      dedupTags seen1 l = dedupTags seen2 l := by
  induction l with
  | nil => intro _ _ _; rfl
  | cons kv rest ih =>
    intro seen1 seen2 hEq
    simp only [dedupTags, hEq kv.1]
    by_cases hk : seenContains seen2 kv.1
    · rw [if_pos hk, if_pos hk]
      exact ih seen1 seen2 hEq
    · rw [if_neg hk, if_neg hk]
      have : ∀ x, seenContains (kv.1 :: seen1) x =
          seenContains (kv.1 :: seen2) x := by
        intro x
        simp [seenContains, hEq x]
        rw [show (seen1.any fun s => s == x) = seenContains seen1 x from rfl,
          show (seen2.any fun s => s == x) = seenContains seen2 x from rfl,
          hEq x]
      rw [ih (kv.1 :: seen1) (kv.1 :: seen2) this]

theorem mapInsert_keys (k : String) (v : List String) :
    ∀ (m : List (String × List String)) (x : String),
      seenContains ((mapInsert k v m).map (·.1)) x =
      seenContains (k :: m.map (·.1)) x
  | [], _ => rfl
  | kv :: rest, x => by
    simp only [mapInsert]
    by_cases h1 : k < kv.1
    · rw [if_pos h1]
      simp [seenContains]
    · rw [if_neg h1]
      by_cases h2 : k = kv.1
      · rw [if_pos h2]
        subst h2
        simp only [seenContains, List.map_cons, List.any_cons]
        cases hx : (kv.1 == x) <;> simp [hx]
      · rw [if_neg h2]
        simp only [seenContains, List.map_cons, List.any_cons]
        rw [show ((mapInsert k v rest).map (·.1)).any (fun s => s == x) =
            seenContains ((mapInsert k v rest).map (·.1)) x from rfl,
          mapInsert_keys k v rest x]
        simp only [seenContains, List.map_cons, List.any_cons]
        cases ha : (kv.1 == x) <;> cases hb : (k == x) <;> simp [ha, hb]

theorem add_tag_dup (r : SeriesRetreiver) (n v : String)
    (h : mapContains n r.tags_ = true) : (r.add_tag n v).2 = r := by
  simp [SeriesRetreiver.add_tag, h]

theorem add_tags_dup (r : SeriesRetreiver) (n : String) (vs : List String)
    (h : mapContains n r.tags_ = true) : (r.add_tags n vs).2 = r := by
  simp [SeriesRetreiver.add_tags, h]

theorem add_tag_new (r : SeriesRetreiver) (n v : String)
    (hm : r.metric_.isEmpty = false) (h : mapContains n r.tags_ = false) :
    (r.add_tag n v).2 = { r with tags_ := mapInsert n [v] r.tags_ } := by
  simp only [SeriesRetreiver.add_tag]
  rw [if_neg (by simp [hm]), if_neg (by simp [h])]

theorem add_tags_new (r : SeriesRetreiver) (n : String) (vs : List String)
    (hm : r.metric_.isEmpty = false) (h : mapContains n r.tags_ = false) :
    (r.add_tags n vs).2 = { r with tags_ := mapInsert n vs r.tags_ } := by
  simp only [SeriesRetreiver.add_tags]
  rw [if_neg (by simp [hm]), if_neg (by simp [h])]

/-- Processing a `where` item list is the same as processing it with the
repeated tag keys removed: `add_tag`/`add_tags` refuse duplicates with
`EBAD_ARG`, and `parse_where_clause` discards that status. -/
theorem where_fold_dedup :
    ∀ (w : List (String × PTree)) (r : SeriesRetreiver), r.metric_ ≠ [] →
      where_fold r w = where_fold r (dedupTags (r.tags_.map (·.1)) w)
  | [], _, _ => rfl
  | (k, v) :: rest, r, hm => by
    have hme : r.metric_.isEmpty = false := by
      simp [List.isEmpty_iff, hm]
    simp only [where_fold, dedupTags]
    by_cases hk : seenContains (r.tags_.map (·.1)) k
    · rw [if_pos hk]
      have hmc : mapContains k r.tags_ = true := by
        rw [← seenContains_map_fst]; exact hk
      by_cases hvc : ¬ v.emptyChildren
      · rw [if_pos hvc, add_tags_dup r k _ hmc]
        exact where_fold_dedup rest r hm
      · rw [if_neg hvc, add_tag_dup r k _ hmc]
        exact where_fold_dedup rest r hm
    · rw [if_neg hk]
      have hmc : mapContains k r.tags_ = false := by
        rw [← seenContains_map_fst]
        exact Bool.eq_false_iff.mpr hk
      simp only [where_fold]
      by_cases hvc : ¬ v.emptyChildren
      · rw [if_pos hvc, if_pos hvc, add_tags_new r k _ hme hmc]
        have hrec := where_fold_dedup rest
          { r with tags_ := (mapInsert k
              (v.children.map (fun idnode => idnode.2.data)) r.tags_) }
          (by simpa using hm)
        rw [hrec, dedupTags_congr rest _ _ (mapInsert_keys k _ r.tags_)]
      · rw [if_neg hvc, if_neg hvc, add_tag_new r k _ hme hmc]
        have hrec := where_fold_dedup rest
          { r with tags_ := (mapInsert k [v.data] r.tags_) }
          (by simpa using hm)
        rw [hrec, dedupTags_congr rest _ _ (mapInsert_keys k _ r.tags_)]

theorem extract_ids_ok_status (matcher : SeriesMatcher)
    (r : SeriesRetreiver) (res : Status × List Nat)
    (h : r.extract_ids matcher = .ok res) : res.1 = .AKU_SUCCESS := by
  rcases hmet : r.metric_ with _ | ⟨fm, tail⟩
  · rw [SeriesRetreiver.extract_ids, hmet] at h
    rw [← Except.ok.inj h]
  · simp only [SeriesRetreiver.extract_ids, hmet] at h
    by_cases htail : tail.isEmpty
    · rw [if_pos htail] at h
      rw [← Except.ok.inj h]
    · rw [if_neg htail] at h
      set I : List Nat :=
        (if r.tags_.isEmpty = true then
          (matcher.regex_match (fm ++ TAG_PATTERN)).map (·.2)
        else
          (matcher.regex_match
            (fm ++ String.join
              (r.tags_.map (fun kv => tag_alternation kv.1 kv.2)))).map
            (·.2)) with hI
      cases h2 : extract_ids_tail matcher fm I tail with
      | error e => rw [h2] at h; exact Except.noConfusion h
      | ok tailIds =>
        rw [h2] at h
        rw [← Except.ok.inj h]

/-- Claim C10: `parse_where_clause` ignores the status of
`add_tag`/`add_tags`, so a `where` clause with a repeated tag key parses
as if the later occurrences were absent (only the first occurrence's
values are applied), and the clause never surfaces `EBAD_ARG`. -/
theorem C10_where_duplicate_tags_ignored :
    (∀ (w : List (String × PTree)) (r : SeriesRetreiver), r.metric_ ≠ [] →
        where_fold r w = where_fold r (dedupTags (r.tags_.map (·.1)) w)) ∧
    (∀ (p : PTree) (metrics : List String) (matcher : SeriesMatcher)
        (res : Status × List Nat),
        parse_where_clause p metrics matcher = .ok res →
        res.1 ≠ .AKU_EBAD_ARG) := by
  constructor
  · exact where_fold_dedup
  · intro p metrics matcher res h
    unfold parse_where_clause at h
    simp only at h
    split at h
    · split at h
      · rw [← Except.ok.inj h]
        decide
      · rw [extract_ids_ok_status matcher _ res h]
        decide
    · split at h
      · rw [extract_ids_ok_status matcher _ res h]
        decide
      · rw [extract_ids_ok_status matcher _ res h]
        decide

/-- The duplicated-tag `where` items of the C10 witness. -/
def c10w : List (String × PTree) :=
  [("host", .node "a" []), ("host", .node "b" [])]

/-- The C10 witness retriever. -/
def c10r : SeriesRetreiver := { metric_ := ["cpu"] }

/-- The C10 witness document: `where: {host: a, host: b}`. -/
def c10doc : PTree := .node "" [("where", .node "" c10w)]

/-- Claim C10 (witness): the dedup statement applied to a clause whose
`host` tag occurs twice — processing stores only the first value — and
the no-`EBAD_ARG` statement applied to the concrete document. -/
theorem C10_where_duplicate_tags_ignored_witness :
    c10r.metric_ ≠ [] ∧
    where_fold c10r c10w = where_fold c10r (dedupTags [] c10w) ∧
    where_fold c10r c10w =
      { metric_ := ["cpu"], tags_ := [("host", ["a"])] } ∧
    parse_where_clause c10doc ["cpu"] matcherTest =
      .ok (.AKU_SUCCESS, []) ∧
    (Status.AKU_SUCCESS, ([] : List Nat)).1 ≠ .AKU_EBAD_ARG :=
  ⟨by decide,
   C10_where_duplicate_tags_ignored.1 c10w c10r (by decide),
   by decide,
   by rfl,
   C10_where_duplicate_tags_ignored.2 c10doc ["cpu"] matcherTest
     (.AKU_SUCCESS, []) (by rfl)⟩

end Akumuli
